import Mathlib

/-!
# Session credentials of the auth service: a shallow embedding

The Go sources embedded here are

* `internal/service/token.go` (`JWTTokenService`),
* `internal/usecase/auth.go` (`AuthUseCase`),
* `internal/infrastructure/transport/http/middleware/auth.go` (`Authenticate`),
* `internal/infrastructure/transport/http/handler/auth.go` (`AuthHandler`) with the
  `response` and `request` helpers it calls,
* `internal/infrastructure/repository/user.go` (`UserRepo`),
* `pkg/hash/hash.go`.

Go functions returning `(value, error)` return a pair whose second component is an
`Option Err` (`none` is Go's `nil`), so that a path returning a stale `err` variable is
embedded as written.  Effects (the clock, the Redis client, the SQL table) are explicit
in a `World` that every effectful function reads and returns.

The libraries the sources call (`golang-jwt/jwt/v5`, `go-redis`, `database/sql`,
`strconv`, `fmt`, `strings`, `encoding/json`) are modelled symbolically, in the usual
Dolev-Yao style for the cryptography: a signature is a term naming the method, the key
and the signed input, and it verifies exactly when those three agree.
-/

set_option autoImplicit false

namespace Auth

/-! ## Go errors -/

/-- Go `error` values: package-level sentinels, `errors.New` / `fmt.Errorf` without `%w`,
`fmt.Errorf("...: %w", err)`, and the joined errors `jwt` builds. -/
inductive Err where
  | sentinel (name : String)
  | new (msg : String)
  | wrap (msg : String) (inner : Err)
  | join (a b : Err)
  deriving DecidableEq, Repr

namespace Err

/-- Go `errors.Is(err, target)` for a sentinel target. -/
def is : Err → Err → Bool
  | sentinel n, t => decide (sentinel n = t)
  | new m, t => decide (new m = t)
  | wrap m e, t => decide (wrap m e = t) || is e t
  | join a b, t => decide (join a b = t) || is a t || is b t

/-- Go `err.Error()`: the message, a wrapped error following its context after a colon. -/
def Error : Err → String
  | sentinel n => n
  | new m => m
  | wrap m e => m ++ ": " ++ Error e
  | join a b => Error a ++ ": " ++ Error b

end Err

/-- Go `errors.Is` on a possibly nil error. -/
def errorsIs (err : Option Err) (target : Err) : Bool :=
  match err with
  | none => false
  | some e => e.is target

/-! ## Machine integers, `fmt.Sprint` and `strconv.ParseInt` -/

/-- The range of Go's `int64`. -/
def isInt64 (n : Int) : Prop := -(2 ^ 63 : Int) ≤ n ∧ n < (2 ^ 63 : Int)

instance (n : Int) : Decidable (isInt64 n) := by unfold isInt64; infer_instance

/-- The decimal digit character of `d < 10`. -/
def digitChar (d : Nat) : Char := Char.ofNat (48 + d)

/-- Decimal digits of `n`, most significant first, pushed in front of `acc`. -/
def decDigits : Nat → Nat → List Char → List Char
  | 0, _, acc => acc
  | fuel + 1, n, acc =>
    if n < 10 then digitChar n :: acc
    else decDigits fuel (n / 10) (digitChar (n % 10) :: acc)

/-- Decimal rendering of a natural number. -/
def formatNat (n : Nat) : List Char := decDigits (n + 1) n []

/-- Go `fmt.Sprint(n)` for an `int64`: decimal digits, `-` in front of negatives. -/
def fmtSprint (n : Int) : String :=
  match n with
  | Int.ofNat m => String.mk (formatNat m)
  | Int.negSucc m => String.mk ('-' :: formatNat (m + 1))

/-- Reads a run of decimal digits, most significant first; `none` on any other character. -/
def parseDigits : List Char → Nat → Option Nat
  | [], acc => some acc
  | c :: cs, acc =>
    if 48 ≤ c.toNat ∧ c.toNat ≤ 57 then parseDigits cs (acc * 10 + (c.toNat - 48)) else none

/-- Go `strconv.ErrSyntax`. -/
def strconvErrSyntax : Err := Err.sentinel "invalid syntax"

/-- Go `strconv.ErrRange`. -/
def strconvErrRange : Err := Err.sentinel "value out of range"

/-- The magnitude part of `strconv.ParseInt`: at least one digit, nothing else. -/
def parseMagnitude (cs : List Char) : Option Nat :=
  match cs with
  | [] => none
  | _ :: _ => parseDigits cs 0

/-- Go `strconv.ParseInt(s, 10, 64)`: an optional sign, then decimal digits; a syntax error
yields 0 and a value outside `int64` yields the nearest bound, both with an error. -/
def strconvParseInt (s : String) : Int × Option Err :=
  let fail : Int × Option Err :=
    (0, some (Err.wrap ("strconv.ParseInt: parsing " ++ s) strconvErrSyntax))
  let range (v : Int) : Int × Option Err :=
    (v, some (Err.wrap ("strconv.ParseInt: parsing " ++ s) strconvErrRange))
  match s.data with
  | [] => fail
  | c :: cs =>
    if c = '-' then
      match parseMagnitude cs with
      | none => fail
      | some m => if m ≤ 2 ^ 63 then (-(m : Int), none) else range (-(2 ^ 63 : Int))
    else
      match parseMagnitude (if c = '+' then cs else c :: cs) with
      | none => fail
      | some m => if m < 2 ^ 63 then ((m : Int), none) else range ((2 ^ 63 : Int) - 1)

/-! ## JSON numbers as `float64` -/

/-- Number of binary digits of `n`, for `n < 2 ^ fuel`. -/
def bitLength : Nat → Nat → Nat
  | 0, _ => 0
  | fuel + 1, n => if n = 0 then 0 else bitLength fuel (n / 2) + 1

/-- The `float64` nearest to the natural number `n` (ties to the even significand), as the
integer it denotes; exact below `2 ^ 53`.  Meant for `n < 2 ^ 1024`. -/
def float64OfNat (n : Nat) : Nat :=
  if n < 2 ^ 53 then n
  else
    let e := bitLength 1024 n - 53
    let q := n / 2 ^ e
    let r := n % 2 ^ e
    let half := 2 ^ (e - 1)
    if half < r ∨ (r = half ∧ q % 2 = 1) then (q + 1) * 2 ^ e else q * 2 ^ e

/-- The `float64` that `encoding/json` decodes an integer literal to. -/
def float64OfInt (n : Int) : Int :=
  match n with
  | Int.ofNat m => (float64OfNat m : Int)
  | Int.negSucc m => -(float64OfNat (m + 1) : Int)

/-- Go `int64(f)` for an integral `float64`: exact inside the `int64` range; outside it the
result is implementation-dependent, and the amd64 value (the minimum) is taken. -/
def int64OfFloat (f : Int) : Int :=
  if isInt64 f then f else -(2 ^ 63 : Int)

/-! ## `golang-jwt/jwt/v5`, symbolically -/

namespace jwt

/-- A JSON value inside a claims object.  Numbers range over the integers (the only
numbers this program writes); `other` stands for every value that is neither an integer
nor a string. -/
inductive JSON where
  | num (v : Int)
  | str (s : String)
  | other (text : String)
  deriving DecidableEq, Repr

/-- Go `jwt.MapClaims`, and the claims object on the wire, as an association list. -/
abbrev MapClaims := List (String × JSON)

/-- Go `*rsa.PublicKey`, named by the key pair it belongs to. -/
structure RSAPublicKey where
  id : Nat
  deriving DecidableEq, Repr

/-- Go `*rsa.PrivateKey`, named by the key pair it belongs to. -/
structure RSAPrivateKey where
  id : Nat
  deriving DecidableEq, Repr

/-- The public half of a private key (Go `priv.PublicKey`). -/
def RSAPrivateKey.PublicKey (k : RSAPrivateKey) : RSAPublicKey := ⟨k.id⟩

/-- The first two segments of a compact token: the header's `alg` (when it is a string)
and the claims object. -/
structure SigningInput where
  alg : Option String
  claims : MapClaims
  deriving DecidableEq, Repr

/-- The third segment.  A signature term records how it was made; `bytes` is any other
byte string. -/
inductive Signature where
  | rsa (method : String) (key : RSAPublicKey) (input : SigningInput)
  | hmac (method : String) (secret : String) (input : SigningInput)
  | bytes (raw : String)
  deriving DecidableEq, Repr

end jwt

/-- A token string.  The compact serialisation is injective and, for the deterministic
methods used here (HMAC, RSA PKCS#1 v1.5), a function of header, claims and key, so a
string that parses is modelled by what it parses to and two token strings are equal
exactly when the terms are; `raw` is a string that is not three well-formed segments. -/
inductive Token where
  | raw (s : String)
  | jws (input : jwt.SigningInput) (sig : jwt.Signature)
  deriving DecidableEq, Repr

/-- The empty Go string, in a position that holds a token. -/
def Token.empty : Token := Token.raw ""

namespace jwt

def ErrTokenMalformed : Err := Err.sentinel "token is malformed"
def ErrTokenUnverifiable : Err := Err.sentinel "token is unverifiable"
def ErrTokenSignatureInvalid : Err := Err.sentinel "token signature is invalid"
def ErrTokenInvalidClaims : Err := Err.sentinel "token has invalid claims"
def ErrTokenExpired : Err := Err.sentinel "token is expired"
def ErrTokenNotValidYet : Err := Err.sentinel "token is not valid yet"
def ErrInvalidKeyType : Err := Err.sentinel "key is of invalid type"
def ErrInvalidType : Err := Err.sentinel "invalid type for claim"
def ErrSignatureInvalid : Err := Err.sentinel "signature is invalid"
def rsaErrVerification : Err := Err.sentinel "crypto/rsa: verification error"
def NoneSignatureTypeDisallowedError : Err :=
  Err.sentinel "'none' signature type is not allowed"

/-- The kind of key a registered signing method works with. -/
inductive KeyKind where
  | rsa
  | hmac
  | ecdsa
  | ed25519
  | unsecured
  deriving DecidableEq, Repr

/-- Go `jwt.GetSigningMethod`: the registered methods, by `alg` name. -/
def GetSigningMethod (alg : String) : Option KeyKind :=
  if alg ∈ ["RS256", "RS384", "RS512", "PS256", "PS384", "PS512"] then some KeyKind.rsa
  else if alg ∈ ["HS256", "HS384", "HS512"] then some KeyKind.hmac
  else if alg ∈ ["ES256", "ES384", "ES512"] then some KeyKind.ecdsa
  else if alg = "EdDSA" then some KeyKind.ed25519
  else if alg = "none" then some KeyKind.unsecured
  else none

/-- What a key function of this program hands to the parser. -/
inductive VerifyKey where
  | rsaPublic (k : RSAPublicKey)
  | bytes (secret : String)
  deriving DecidableEq, Repr

/-- What this program hands to `SignedString`. -/
inductive SignKey where
  | rsaPrivate (k : RSAPrivateKey)
  | bytes (secret : String)
  deriving DecidableEq, Repr

/-- Go `SigningMethod.Verify`: a method rejects a key of the wrong Go type, and otherwise
accepts exactly the signature made by that method, under the matching key, over this
input. -/
def Verify (kind : KeyKind) (alg : String) (input : SigningInput) (sig : Signature)
    (key : VerifyKey) : Option Err :=
  match kind, key with
  | KeyKind.rsa, VerifyKey.rsaPublic k =>
    if sig = Signature.rsa alg k input then none else some rsaErrVerification
  | KeyKind.hmac, VerifyKey.bytes secret =>
    if sig = Signature.hmac alg secret input then none else some ErrSignatureInvalid
  | KeyKind.unsecured, _ => some NoneSignatureTypeDisallowedError
  | _, _ => some ErrInvalidKeyType

/-- Go `SigningMethod.Sign` behind `Token.SignedString`: the signature term, or
`ErrInvalidKeyType` when the key is not of the method's type. -/
def Sign (kind : KeyKind) (alg : String) (input : SigningInput) (key : SignKey) :
    Option Signature :=
  match kind, key with
  | KeyKind.rsa, SignKey.rsaPrivate k => some (Signature.rsa alg k.PublicKey input)
  | KeyKind.hmac, SignKey.bytes secret => some (Signature.hmac alg secret input)
  | _, _ => none

/-- Go `jwt.NewWithClaims(method, claims).SignedString(key)`. -/
def SignedString (alg : String) (claims : MapClaims) (key : SignKey) : Token × Option Err :=
  let input : SigningInput := { alg := some alg, claims := claims }
  match GetSigningMethod alg with
  | none => (Token.empty, some ErrInvalidKeyType)
  | some kind =>
    match Sign kind alg input key with
    | none => (Token.empty, some ErrInvalidKeyType)
    | some sig => (Token.jws input sig, none)

/-- What `encoding/json` leaves in a `MapClaims` for one wire value: numbers become
`float64`. -/
def decodeValue : JSON → JSON
  | JSON.num v => JSON.num (float64OfInt v)
  | v => v

/-- The decoded claims map. -/
def decodeClaims (claims : MapClaims) : MapClaims :=
  claims.map (fun kv => (kv.1, decodeValue kv.2))

/-- Go map indexing `claims[key]` on a decoded object: the last occurrence of a repeated
key wins. -/
def MapClaims.get (claims : MapClaims) (key : String) : Option JSON :=
  claims.reverse.lookup key

/-- One of `exp` / `nbf` as the validator reads it: absent or zero is no date, a number is
that many seconds, anything else is a type error. -/
def parseNumericDate (claims : MapClaims) (key : String) : Except Err (Option Int) :=
  match MapClaims.get claims key with
  | none => Except.ok none
  | some (JSON.num f) => if f = 0 then Except.ok none else Except.ok (some f)
  | some _ => Except.error ErrInvalidType

/-- The `exp` check of the default validator at Unix second `now`. -/
def verifyExpiresAt (claims : MapClaims) (now : Int) : Option Err :=
  match parseNumericDate claims "exp" with
  | Except.error e => some e
  | Except.ok none => none
  | Except.ok (some exp) => if now < exp then none else some ErrTokenExpired

/-- The `nbf` check of the default validator at Unix second `now`. -/
def verifyNotBefore (claims : MapClaims) (now : Int) : Option Err :=
  match parseNumericDate claims "nbf" with
  | Except.error e => some e
  | Except.ok none => none
  | Except.ok (some nbf) => if now < nbf then some ErrTokenNotValidYet else none

/-- Go `Validator.Validate` with the default options: `exp` and `nbf`, errors joined. -/
def Validate (claims : MapClaims) (now : Int) : Option Err :=
  match verifyExpiresAt claims now, verifyNotBefore claims now with
  | none, none => none
  | some e, none => some e
  | none, some e => some e
  | some e, some f => some (Err.join e f)

/-- The outcome of parsing: the claims map the parser filled, the `Valid` flag, and the
error. -/
structure Parsed where
  Claims : MapClaims
  Valid : Bool
  err : Option Err
  deriving DecidableEq, Repr

/-- Go `Parser.ParseWithClaims` with the default parser, a key function that returns `key`
and the clock at `now`: decode, look the method up, verify the signature, then validate
the claims (the order of the current v5 releases). -/
def ParseWithClaims (tokenStr : Token) (key : VerifyKey) (now : Int) : Parsed :=
  match tokenStr with
  | Token.raw _ => { Claims := [], Valid := false, err := some ErrTokenMalformed }
  | Token.jws input sig =>
    let claims := decodeClaims input.claims
    match input.alg with
    | none => { Claims := claims, Valid := false, err := some ErrTokenUnverifiable }
    | some alg =>
      match GetSigningMethod alg with
      | none => { Claims := claims, Valid := false, err := some ErrTokenUnverifiable }
      | some kind =>
        match Verify kind alg input sig key with
        | some e =>
          { Claims := claims, Valid := false, err := some (Err.join ErrTokenSignatureInvalid e) }
        | none =>
          match Validate claims now with
          | some e =>
            { Claims := claims, Valid := false, err := some (Err.join ErrTokenInvalidClaims e) }
          | none => { Claims := claims, Valid := true, err := none }

/-- Go `jwt.Parse`: `ParseWithClaims` into a fresh `MapClaims`. -/
def Parse (tokenStr : Token) (key : VerifyKey) (now : Int) : Parsed :=
  ParseWithClaims tokenStr key now

end jwt

/-! ## The outside world: clock, Redis, the `users` table -/

namespace redis

/-- Go `redis.Nil`: the reply for a key that does not exist. -/
def Nil : Err := Err.sentinel "redis: nil"

/-- The error of a command that did not complete (connection failure, or the context's
deadline passing first). -/
def ErrUnavailable : Err := Err.sentinel "redis: command failed"

/-- One key of the keyspace, with the Unix second at which it expires. -/
structure Entry where
  key : String
  value : Token
  expireAt : Int
  deriving DecidableEq, Repr

/-- The server behind the `*redis.Client`: the keyspace, and a fault schedule saying for
each coming command whether it fails (an exhausted schedule means no more faults). -/
structure Client where
  entries : List Entry
  faults : List Bool
  deriving DecidableEq, Repr

/-- Whether the next command fails. -/
def Client.failing (c : Client) : Bool := c.faults.head?.getD false

/-- The client once the next command has been issued. -/
def Client.step (c : Client) : Client := { c with faults := c.faults.tail }

/-- The live value under `key` at second `now`. -/
def Client.lookup (c : Client) (now : Int) (key : String) : Option Token :=
  (c.entries.find? (fun e => e.key = key && decide (now < e.expireAt))).map (fun e => e.value)

/-- Go `rdb.Set(ctx, key, value, ttl).Err()`: the key is overwritten and lives `ttl`
seconds; a failed command changes nothing. -/
def Client.Set (c : Client) (now : Int) (key : String) (value : Token) (ttl : Int) :
    Option Err × Client :=
  if c.failing then (some ErrUnavailable, c.step)
  else
    (none, { c.step with
      entries := { key := key, value := value, expireAt := now + ttl } ::
        c.entries.filter (fun e => e.key ≠ key) })

/-- Go `rdb.Get(ctx, key).Result()`: `redis.Nil` for a key that is absent or expired. -/
def Client.Get (c : Client) (now : Int) (key : String) : (Token × Option Err) × Client :=
  if c.failing then ((Token.empty, some ErrUnavailable), c.step)
  else
    match c.lookup now key with
    | none => ((Token.empty, some Nil), c.step)
    | some v => ((v, none), c.step)

/-- Go `rdb.Del(ctx, key).Err()`: deleting an absent key is not an error. -/
def Client.Del (c : Client) (key : String) : Option Err × Client :=
  if c.failing then (some ErrUnavailable, c.step)
  else (none, { c.step with entries := c.entries.filter (fun e => e.key ≠ key) })

end redis

namespace entity

/-- Go `entity.User`; the two timestamps are Unix seconds. -/
structure User where
  ID : Int
  Username : String
  Email : String
  Password : String
  ProfilePic : String
  Role : Int
  CreatedAt : Int
  UpdatedAt : Int
  deriving DecidableEq, Repr

/-- The zero value of `entity.User`. -/
def User.zero : User :=
  { ID := 0, Username := "", Email := "", Password := "", ProfilePic := "", Role := 0,
    CreatedAt := 0, UpdatedAt := 0 }

end entity

namespace sql

/-- Go `sql.ErrNoRows`. -/
def ErrNoRows : Err := Err.sentinel "sql: no rows in result set"

/-- The error of a statement that did not complete. -/
def ErrConnDone : Err := Err.sentinel "sql: connection is already closed"

/-- The error the driver reports when a row violates a constraint of the table. -/
def ErrConstraint (name : String) : Err := Err.new ("pq: constraint violation: " ++ name)

/-- The statements `UserRepo` sends, as the server logs them. -/
inductive Stmt where
  | selectByEmail (email : String)
  | selectById (id : Int)
  | insert (user : entity.User)
  | update (id : Int) (user : entity.User)
  | delete (id : Int)
  deriving DecidableEq, Repr

/-- The database behind `*sql.DB`: the rows of `users`, the next value of the `SERIAL`
sequence of `id`, a fault schedule as for Redis, and the log of statements received
(newest first). -/
structure DB where
  users : List entity.User
  nextID : Int
  faults : List Bool
  log : List Stmt
  deriving DecidableEq, Repr

/-- Whether the next statement fails. -/
def DB.failing (d : DB) : Bool := d.faults.head?.getD false

/-- The database once statement `q` has been received. -/
def DB.step (d : DB) (q : Stmt) : DB := { d with faults := d.faults.tail, log := q :: d.log }

end sql

namespace os

/-- The contents of a file, or any `[]byte` read from one.  As with tokens, PEM text is
modelled by the key it encodes; `text` is every other content. -/
inductive Bytes where
  | publicKeyPEM (key : jwt.RSAPublicKey)
  | privateKeyPEM (key : jwt.RSAPrivateKey)
  | text (s : String)
  deriving DecidableEq, Repr

/-- The empty byte slice `[]byte{}`. -/
def Bytes.empty : Bytes := Bytes.text ""

/-- Go `fs.ErrNotExist`, as `os.ReadFile` reports a missing file. -/
def ErrNotExist : Err := Err.sentinel "file does not exist"

end os

/-- Everything outside the process that the embedded code reads or writes: the wall clock
(Unix seconds), the Redis server, the SQL database, the salt the next `bcrypt` hash
draws, and the files of the working directory by path. -/
structure World where
  now : Int
  rdb : redis.Client
  db : sql.DB
  salt : Nat
  files : List (String × os.Bytes) := []
  deriving DecidableEq, Repr

/-- Go `os.ReadFile`. -/
def os.ReadFile (name : String) (w : World) : os.Bytes × Option Err :=
  match w.files.lookup name with
  | none => (os.Bytes.empty, some (Err.wrap ("open " ++ name) os.ErrNotExist))
  | some bytes => (bytes, none)

namespace jwt

/-- Go `jwt.ErrKeyMustBePEMEncoded`. -/
def ErrKeyMustBePEMEncoded : Err :=
  Err.sentinel "invalid key: Key must be a PEM encoded PKCS1 or PKCS8 key"

/-- Go `jwt.ParseRSAPrivateKeyFromPEM`. -/
def ParseRSAPrivateKeyFromPEM (key : os.Bytes) : Option RSAPrivateKey × Option Err :=
  match key with
  | os.Bytes.privateKeyPEM k => (some k, none)
  | _ => (none, some ErrKeyMustBePEMEncoded)

/-- Go `jwt.ParseRSAPublicKeyFromPEM`. -/
def ParseRSAPublicKeyFromPEM (key : os.Bytes) : Option RSAPublicKey × Option Err :=
  match key with
  | os.Bytes.publicKeyPEM k => (some k, none)
  | _ => (none, some ErrKeyMustBePEMEncoded)

end jwt

/-! ## `internal/service/token.go` -/

namespace service

/-- Go `JWTTokenService`; the `Rdb` field is the client whose server is `World.rdb`. -/
structure JWTTokenService where
  PublicAccessSecret : jwt.RSAPublicKey
  AccessSecret : jwt.RSAPrivateKey
  RefreshSecret : String
  deriving DecidableEq, Repr

/-- Seven days (`7*24*time.Hour`), in seconds. -/
def refreshTTL : Int := 7 * 24 * 3600

/-- Fifteen minutes (`15*time.Minute`), in seconds. -/
def accessTTL : Int := 15 * 60

/-- Go `generateJWT`: an HS256 token with claims `userId` (a string) and `exp`.  The claims
are listed in the order `json.Marshal` writes a map, by key. -/
def generateJWT (userID : String) (secret : String) (ttl : Int) (w : World) :
    Token × Option Err :=
  let claims : jwt.MapClaims :=
    [("exp", jwt.JSON.num (w.now + ttl)), ("userId", jwt.JSON.str userID)]
  jwt.SignedString "HS256" claims (jwt.SignKey.bytes secret)

namespace JWTTokenService

/-- Go `(*JWTTokenService).GenerateRefreshToken`. -/
def GenerateRefreshToken (s : JWTTokenService) (userID : Int) (w : World) :
    Token × Option Err :=
  generateJWT (fmtSprint userID) s.RefreshSecret refreshTTL w

/-- Go `(*JWTTokenService).StoreRefreshToken`. -/
def StoreRefreshToken (_s : JWTTokenService) (userID : Int) (token : Token) (w : World) :
    Option Err × World :=
  let r := w.rdb.Set w.now (fmtSprint userID) token refreshTTL
  (r.1, { w with rdb := r.2 })

/-- Go `(*JWTTokenService).GetRefreshToken`. -/
def GetRefreshToken (_s : JWTTokenService) (userID : Int) (w : World) :
    (Token × Option Err) × World :=
  let r := w.rdb.Get w.now (fmtSprint userID)
  (r.1, { w with rdb := r.2 })

/-- Go `(*JWTTokenService).RemoveRefreshToken`. -/
def RemoveRefreshToken (_s : JWTTokenService) (userID : Int) (w : World) :
    Option Err × World :=
  let r := w.rdb.Del (fmtSprint userID)
  (r.1, { w with rdb := r.2 })

/-- Go `(*JWTTokenService).VerifyRefreshToken`: an expired token is let past the first
check and comes back with its subject and the expiry error. -/
def VerifyRefreshToken (s : JWTTokenService) (tokenStr : Token) (w : World) :
    String × Option Err :=
  let parsed := jwt.ParseWithClaims tokenStr (jwt.VerifyKey.bytes s.RefreshSecret) w.now
  let err := parsed.err
  match err, errorsIs err jwt.ErrTokenExpired with
  | some e, false => ("", some (Err.wrap "token invalid" e))
  | _, _ =>
    match jwt.MapClaims.get parsed.Claims "userId" with
    | some (jwt.JSON.str userID) => (userID, err)
    | _ => ("", some (Err.new "invalid token claims"))

/-- Go `(*JWTTokenService).GenerateAccessToken`: an RS256 token with claims `userId` (a
JSON number) and `exp`. -/
def GenerateAccessToken (s : JWTTokenService) (userID : Int) (w : World) :
    Token × Option Err :=
  let claims : jwt.MapClaims :=
    [("exp", jwt.JSON.num (w.now + accessTTL)), ("userId", jwt.JSON.num userID)]
  jwt.SignedString "RS256" claims (jwt.SignKey.rsaPrivate s.AccessSecret)

/-- Go `(*JWTTokenService).VerifyToken`.  The assertion `token.Claims.(jwt.MapClaims)`
always holds for a token from `jwt.Parse`, so the second check only re-reads `Valid`. -/
def VerifyToken (s : JWTTokenService) (tokenStr : Token) (w : World) : Int × Option Err :=
  let token := jwt.Parse tokenStr (jwt.VerifyKey.rsaPublic s.PublicAccessSecret) w.now
  if token.err.isSome || !token.Valid then (0, some (Err.new "invalid token"))
  else if !token.Valid then (0, some (Err.new "invalid claims"))
  else
    match jwt.MapClaims.get token.Claims "userId" with
    | some (jwt.JSON.num userIDFloat) => (int64OfFloat userIDFloat, none)
    | _ => (0, some (Err.new "userId not found"))

/-- Go `(*JWTTokenService).GetPublicKeyPEM`: reads the file at the fixed path
`keys/public.pem` at the time of the call. -/
def GetPublicKeyPEM (_s : JWTTokenService) (w : World) : os.Bytes × Option Err :=
  os.ReadFile "keys/public.pem" w

end JWTTokenService

/-- Go `NewJWTTokenService`: reads and parses the private key, then the public key; each
`panic(err)` is embedded as `Except.error err`. -/
def NewJWTTokenService (publicAccessSecretPath accessSecretPath refreshSecret : String)
    (w : World) : Except Err JWTTokenService :=
  let r := os.ReadFile accessSecretPath w
  let accessSecretBytes := r.1
  match r.2 with
  | some err => Except.error err
  | none =>
    match jwt.ParseRSAPrivateKeyFromPEM accessSecretBytes with
    | (_, some err) => Except.error err
    | (none, none) => Except.error jwt.ErrKeyMustBePEMEncoded
    | (some accessSecret, none) =>
      let r := os.ReadFile publicAccessSecretPath w
      let publicAccessSecretBytes := r.1
      match r.2 with
      | some err => Except.error err
      | none =>
        match jwt.ParseRSAPublicKeyFromPEM publicAccessSecretBytes with
        | (_, some err) => Except.error err
        | (none, none) => Except.error jwt.ErrKeyMustBePEMEncoded
        | (some publicAccessSecret, none) =>
          Except.ok
            { PublicAccessSecret := publicAccessSecret
              AccessSecret := accessSecret
              RefreshSecret := refreshSecret }

end service

/-! ## `pkg/hash/hash.go` -/

namespace bcrypt

/-- The package `golang.org/x/crypto/bcrypt`, taken as a parameter: hashing draws a salt,
comparison reports a mismatch as an error. -/
structure Impl where
  GenerateFromPassword : (salt : Nat) → (password : String) → (cost : Nat) → String × Option Err
  CompareHashAndPassword : (hashedPassword : String) → (password : String) → Option Err

/-- Go `bcrypt.DefaultCost`. -/
def DefaultCost : Nat := 10

end bcrypt

namespace hash

/-- Go `hash.HashPassword`. -/
def HashPassword (bc : bcrypt.Impl) (password : String) (w : World) : String × Option Err :=
  bc.GenerateFromPassword w.salt password bcrypt.DefaultCost

/-- Go `hash.CheckPassword`. -/
def CheckPassword (bc : bcrypt.Impl) (hashedPassword plainPassword : String) : Option Err :=
  match bc.CompareHashAndPassword hashedPassword plainPassword with
  | some _ => some (Err.new "invalid password")
  | none => none

end hash

/-! ## `internal/usecase/interfaces/interface.go` -/

namespace interfaces

/-- Go `interfaces.UserRepo`, the methods the embedded use cases call.  A `*entity.User`
that is nil is embedded as the zero user; no embedded path reads it. -/
structure UserRepo where
  GetById : Int → World → (entity.User × Option Err) × World
  GetByEmail : String → World → (entity.User × Option Err) × World
  UpdateById : Int → entity.User → World → Option Err × World
  DeleteById : Int → World → Option Err × World
  Create : entity.User → World → (Int × Option Err) × World

/-- Go `interfaces.TokenService`, the methods the embedded use cases call. -/
structure TokenService where
  GenerateAccessToken : Int → World → Token × Option Err
  GenerateRefreshToken : Int → World → Token × Option Err
  StoreRefreshToken : Int → Token → World → Option Err × World
  RemoveRefreshToken : Int → World → Option Err × World
  VerifyRefreshToken : Token → World → String × Option Err
  GetRefreshToken : Int → World → (Token × Option Err) × World
  GetPublicKeyPEM : World → os.Bytes × Option Err

end interfaces

/-- The `JWTTokenService` seen through `interfaces.TokenService`, as `main` wires it. -/
def service.JWTTokenService.asTokenService (s : service.JWTTokenService) :
    interfaces.TokenService :=
  { GenerateAccessToken := s.GenerateAccessToken
    GenerateRefreshToken := s.GenerateRefreshToken
    StoreRefreshToken := s.StoreRefreshToken
    RemoveRefreshToken := s.RemoveRefreshToken
    VerifyRefreshToken := s.VerifyRefreshToken
    GetRefreshToken := s.GetRefreshToken
    GetPublicKeyPEM := s.GetPublicKeyPEM }

/-! ## `internal/infrastructure/repository/user.go` -/

namespace repository

/-- The constraint of the `users` table (as created by `NewUserRepo`) that writing `user`
next to the rows `others` violates, if any: the `VARCHAR` lengths, the two `CHECK`s and
`email ... UNIQUE`. -/
def violation (others : List entity.User) (user : entity.User) : Option Err :=
  if 15 < user.Username.length then some (sql.ErrConstraint "username varchar(15)")
  else if user.Username.length < 3 then some (sql.ErrConstraint "users_username_check")
  else if 255 < user.Email.length then some (sql.ErrConstraint "email varchar(255)")
  else if 255 < user.Password.length then some (sql.ErrConstraint "password varchar(255)")
  else if user.Password.length < 6 then some (sql.ErrConstraint "users_password_check")
  else if others.any (fun u => u.Email = user.Email) then
    some (sql.ErrConstraint "users_email_key")
  else none

/-- Go `(*UserRepo).GetByEmail`: on `sql.ErrNoRows` the zero user comes back together with
that error. -/
def GetByEmail (email : String) (w : World) : (entity.User × Option Err) × World :=
  let w1 : World := { w with db := w.db.step (sql.Stmt.selectByEmail email) }
  if w.db.failing then ((entity.User.zero, some sql.ErrConnDone), w1)
  else
    match w.db.users.find? (fun u => u.Email = email) with
    | none => ((entity.User.zero, some sql.ErrNoRows), w1)
    | some user => ((user, none), w1)

/-- Go `(*UserRepo).GetById`. -/
def GetById (id : Int) (w : World) : (entity.User × Option Err) × World :=
  let w1 : World := { w with db := w.db.step (sql.Stmt.selectById id) }
  if w.db.failing then ((entity.User.zero, some sql.ErrConnDone), w1)
  else
    match w.db.users.find? (fun u => u.ID = id) with
    | none =>
      ((entity.User.zero, some (Err.new ("user with id " ++ fmtSprint id ++ " not found"))), w1)
    | some user => ((user, none), w1)

/-- Go `(*UserRepo).Create`: the `INSERT ... RETURNING id`.  The sequence value is drawn
before the constraints are checked, so a rejected row still consumes an id. -/
def Create (user : entity.User) (w : World) : (Int × Option Err) × World :=
  let d := w.db.step (sql.Stmt.insert user)
  if w.db.failing then ((0, some sql.ErrConnDone), { w with db := d })
  else
    let id := w.db.nextID
    match violation w.db.users user with
    | some e => ((0, some e), { w with db := { d with nextID := id + 1 } })
    | none =>
      let row : entity.User := { user with ID := id, CreatedAt := w.now, UpdatedAt := w.now }
      ((id, none), { w with db := { d with nextID := id + 1, users := w.db.users ++ [row] } })

/-- Go `(*UserRepo).UpdateById`. -/
def UpdateById (id : Int) (user : entity.User) (w : World) : Option Err × World :=
  let d := w.db.step (sql.Stmt.update id user)
  if w.db.failing then (some sql.ErrConnDone, { w with db := d })
  else if !(w.db.users.any (fun u => u.ID = id)) then
    (some (Err.new ("no user found with id " ++ fmtSprint id)), { w with db := d })
  else
    match violation (w.db.users.filter (fun u => u.ID ≠ id)) user with
    | some e => (some e, { w with db := d })
    | none =>
      let write (u : entity.User) : entity.User :=
        if u.ID = id then
          { u with Username := user.Username, Email := user.Email, Password := user.Password,
                   ProfilePic := user.ProfilePic, Role := user.Role, UpdatedAt := w.now }
        else u
      (none, { w with db := { d with users := w.db.users.map write } })

/-- Go `(*UserRepo).DeleteById`. -/
def DeleteById (id : Int) (w : World) : Option Err × World :=
  let d := w.db.step (sql.Stmt.delete id)
  if w.db.failing then (some sql.ErrConnDone, { w with db := d })
  else if !(w.db.users.any (fun u => u.ID = id)) then
    (some (Err.new ("no user found with id " ++ fmtSprint id)), { w with db := d })
  else (none, { w with db := { d with users := w.db.users.filter (fun u => u.ID ≠ id) } })

/-- The repository `NewUserRepo` returns, seen through `interfaces.UserRepo`. -/
def UserRepo : interfaces.UserRepo :=
  { GetById := GetById
    GetByEmail := GetByEmail
    UpdateById := UpdateById
    DeleteById := DeleteById
    Create := Create }

end repository

/-! ## `internal/usecase/auth.go` -/

namespace usecase

/-- Go `AuthUseCase`, without the `CloudService` that no embedded method calls. -/
structure AuthUseCase where
  UserRepo : interfaces.UserRepo
  TokenService : interfaces.TokenService

/-- What the session methods return: `(string, string, error)`. -/
abbrev Tokens := Token × Token × Option Err

/-- The `return "", "", err` of the session methods. -/
def failed (err : Option Err) : Tokens := (Token.empty, Token.empty, err)

namespace AuthUseCase

/-- Go `(*AuthUseCase).RegisterUser`.  The result of the lookup is dropped (`_`): only an
error other than `sql.ErrNoRows` stops the registration. -/
def RegisterUser (uc : AuthUseCase) (bc : bcrypt.Impl) (user : entity.User) (w : World) :
    Tokens × World :=
  let r := uc.UserRepo.GetByEmail user.Email w
  let err := r.1.2
  let w := r.2
  if err.isSome && err ≠ some sql.ErrNoRows then
    (failed (err.map (Err.wrap "failed to check existing user")), w)
  else
    let r := hash.HashPassword bc user.Password w
    let user := { user with Password := r.1 }
    let err := r.2
    if err.isSome then (failed err, w)
    else
      let r := uc.UserRepo.Create user w
      let id := r.1.1
      let err := r.1.2
      let w := r.2
      if err.isSome then (failed err, w)
      else
        let r := uc.TokenService.GenerateRefreshToken id w
        let refreshToken := r.1
        let err := r.2
        if err.isSome then (failed err, w)
        else
          let r := uc.TokenService.StoreRefreshToken id refreshToken w
          let err := r.1
          let w := r.2
          if err.isSome then (failed err, w)
          else
            let r := uc.TokenService.GenerateAccessToken id w
            let accessToken := r.1
            let err := r.2
            if err.isSome then (failed err, w)
            else ((accessToken, refreshToken, none), w)

/-- Go `(*AuthUseCase).LoginUser`. -/
def LoginUser (uc : AuthUseCase) (bc : bcrypt.Impl) (email password : String) (w : World) :
    Tokens × World :=
  let r := uc.UserRepo.GetByEmail email w
  let existingUser := r.1.1
  let err := r.1.2
  let w := r.2
  if err.isSome then
    if errorsIs err sql.ErrNoRows then (failed (err.map (Err.wrap "user not found")), w)
    else (failed err, w)
  else
    let err := hash.CheckPassword bc existingUser.Password password
    if err.isSome then (failed err, w)
    else
      let r := uc.TokenService.GenerateRefreshToken existingUser.ID w
      let refreshToken := r.1
      let err := r.2
      if err.isSome then (failed err, w)
      else
        let r := uc.TokenService.StoreRefreshToken existingUser.ID refreshToken w
        let err := r.1
        let w := r.2
        if err.isSome then (failed err, w)
        else
          let r := uc.TokenService.GenerateAccessToken existingUser.ID w
          let accessToken := r.1
          let err := r.2
          if err.isSome then (failed err, w)
          else ((accessToken, refreshToken, none), w)

/-- Go `(*AuthUseCase).LogoutUser`. -/
def LogoutUser (uc : AuthUseCase) (userID : Int) (w : World) : Option Err × World :=
  let r := uc.TokenService.RemoveRefreshToken userID w
  let err := r.1
  if err.isSome then (err, r.2) else (none, r.2)

/-- Go `(*AuthUseCase).RefreshSession`.  On a mismatch the method returns the `err`
variable, which at that point holds the nil of the successful `GetRefreshToken`; on success
the new refresh token is the first result and the new access token the second. -/
def RefreshSession (uc : AuthUseCase) (refreshToken : Token) (w : World) : Tokens × World :=
  let r := uc.TokenService.VerifyRefreshToken refreshToken w
  let userID := r.1
  let err := r.2
  if err.isSome then (failed err, w)
  else
    let r := strconvParseInt userID
    let parsedUserID := r.1
    let err := r.2
    if err.isSome then (failed err, w)
    else
      let r := uc.TokenService.GetRefreshToken parsedUserID w
      let storedToken := r.1.1
      let err := r.1.2
      let w := r.2
      if err.isSome then (failed err, w)
      else if storedToken ≠ refreshToken then (failed err, w)
      else
        let r := uc.TokenService.GenerateRefreshToken parsedUserID w
        let newRefreshToken := r.1
        let err := r.2
        if err.isSome then (failed err, w)
        else
          let r := uc.TokenService.GenerateAccessToken parsedUserID w
          let newAccessToken := r.1
          let err := r.2
          if err.isSome then (failed err, w)
          else
            let r := uc.TokenService.StoreRefreshToken parsedUserID newRefreshToken w
            let err := r.1
            let w := r.2
            if err.isSome then (failed err, w)
            else ((newRefreshToken, newAccessToken, none), w)

/-- Go `(*AuthUseCase).GetPublicKey`. -/
def GetPublicKey (uc : AuthUseCase) (w : World) : os.Bytes × Option Err :=
  let r := uc.TokenService.GetPublicKeyPEM w
  let pubKey := r.1
  let err := r.2
  if err.isSome then (os.Bytes.empty, err) else (pubKey, none)

/-- Go `(*AuthUseCase).UpdateAuthUserProfile`. -/
def UpdateAuthUserProfile (uc : AuthUseCase) (authUserId : Int) (user : entity.User)
    (w : World) : Option Err × World :=
  let r := uc.UserRepo.UpdateById authUserId user w
  let err := r.1
  if err.isSome then (err, r.2) else (none, r.2)

end AuthUseCase

/-- Go `NewAuthUseCase`. -/
def NewAuthUseCase (r : interfaces.UserRepo) (s : interfaces.TokenService) : AuthUseCase :=
  { UserRepo := r, TokenService := s }

/-- The use case as `main` wires it: the SQL repository and the JWT token service. -/
def wired (s : service.JWTTokenService) : AuthUseCase :=
  NewAuthUseCase repository.UserRepo s.asTokenService

/-! ## `internal/usecase/user.go` -/

/-- Go `UserUseCase`. -/
structure UserUseCase where
  Repo : interfaces.UserRepo

/-- Go `NewUserUseCase`. -/
def NewUserUseCase (r : interfaces.UserRepo) : UserUseCase := { Repo := r }

namespace UserUseCase

/-- Go `(*UserUseCase).UpdateUserById`. -/
def UpdateUserById (uc : UserUseCase) (id : Int) (user : entity.User) (w : World) :
    Option Err × World :=
  uc.Repo.UpdateById id user w

/-- Go `(*UserUseCase).CreateUser`. -/
def CreateUser (uc : UserUseCase) (user : entity.User) (w : World) : Option Err × World :=
  let r := uc.Repo.Create user w
  let err := r.1.2
  if err.isSome then (err, r.2) else (none, r.2)

end UserUseCase

end usecase

/-! ## `internal/infrastructure/transport/http/middleware/auth.go` -/

namespace http

/-- Go `strings.HasPrefix`. -/
def stringsHasPrefix (s pre : String) : Bool := pre.data.isPrefixOf s.data

/-- Whether `sub` occurs in `cs` at some position. -/
def occursIn (sub : List Char) : List Char → Bool
  | [] => sub.isPrefixOf []
  | c :: cs => sub.isPrefixOf (c :: cs) || occursIn sub cs

/-- Go `strings.Contains`. -/
def stringsContains (s substr : String) : Bool := occursIn substr.data s.data

/-- Go `http.StatusUnauthorized`. -/
def StatusUnauthorized : Nat := 401

/-- The value a request context holds under the middleware's unexported `userContextKey`;
only `Authenticate` can set it, and it sets an `int64`. -/
structure Context where
  user : Option Int
  deriving DecidableEq, Repr

/-- Go `http.SameSite`. -/
inductive SameSite where
  | SameSiteDefaultMode
  | SameSiteLaxMode
  | SameSiteStrictMode
  | SameSiteNoneMode
  deriving DecidableEq, Repr

/-- Go `http.Cookie`: a request cookie carries a name and a value, a cookie to be set
also its attributes. -/
structure Cookie where
  Name : String
  Value : Token
  MaxAge : Int := 0
  HttpOnly : Bool := false
  Secure : Bool := false
  Path : String := ""
  SameSite : SameSite := SameSite.SameSiteDefaultMode
  deriving DecidableEq, Repr

/-- The parts of `*http.Request` the middleware and the handlers read. -/
structure Request where
  Path : String
  Cookies : List Cookie
  ctx : Context
  Body : String := ""
  deriving DecidableEq, Repr

/-- What a handler has written to its `http.ResponseWriter`: the status (0 while no header
has been written), the body, and the `Set-Cookie` headers in the order they were added. -/
structure Response where
  status : Nat
  body : String
  cookies : List Cookie := []
  deriving DecidableEq, Repr

/-- Go `http.Handler`. -/
abbrev Handler := Request → World → Response × World

/-- Go `(*http.Request).Cookie`: the first cookie of that name. -/
def Request.Cookie (r : Request) (name : String) : Option Cookie :=
  r.Cookies.find? (fun c => c.Name = name)

/-- Go `http.Error`. -/
def Error (msg : String) (code : Nat) : Response := { status := code, body := msg ++ "\n" }

/-- Go `http.StatusOK`. -/
def StatusOK : Nat := 200

/-- Go `http.StatusBadRequest`. -/
def StatusBadRequest : Nat := 400

/-- Go `http.StatusInternalServerError`. -/
def StatusInternalServerError : Nat := 500

/-- A fresh `http.ResponseWriter`, nothing written yet. -/
def Response.fresh : Response := { status := 0, body := "" }

/-- Go `ResponseWriter.WriteHeader`: only the first status counts. -/
def Response.WriteHeader (rw : Response) (status : Nat) : Response :=
  if rw.status = 0 then { rw with status := status } else rw

/-- Go `ResponseWriter.Write`. -/
def Response.Write (rw : Response) (text : String) : Response :=
  { rw with body := rw.body ++ text }

/-- Go `http.SetCookie`: one more `Set-Cookie` header. -/
def SetCookie (rw : Response) (cookie : Cookie) : Response :=
  { rw with cookies := rw.cookies ++ [cookie] }

end http

namespace middleware

/-- The test of `Authenticate` that sends a request to the wrapped handler unverified. -/
def unauthenticatedRoute (path : String) : Bool :=
  http.stringsHasPrefix path "/api/v1/auth/" &&
    (http.stringsContains path "login" || http.stringsContains path "register" ||
      http.stringsContains path "refresh")

/-- Go `middleware.Authenticate(tokenService, env)(next)`.  The one-second deadline put
on the context is not modelled: `VerifyToken` does not read its context. -/
def Authenticate (tokenService : service.JWTTokenService) (_env : String)
    (next : http.Handler) : http.Handler :=
  fun r w =>
    let path := r.Path
    if unauthenticatedRoute path then next r w
    else
      match r.Cookie "access_token" with
      | none =>
        (http.Error "Unauthorized - error reading access token" http.StatusUnauthorized, w)
      | some accessCookie =>
        let v := tokenService.VerifyToken accessCookie.Value w
        let userID := v.1
        let err := v.2
        if err.isSome then
          (http.Error "Unauthorized - invalid token" http.StatusUnauthorized, w)
        else
          let ctx : http.Context := { user := some userID }
          next { r with ctx := ctx } w

/-- Go `middleware.GetUserIDFromContext`. -/
def GetUserIDFromContext (ctx : http.Context) : Int × Option Err :=
  match ctx.user with
  | none => (0, some (Err.new "something went wrong"))
  | some user => (user, none)

end middleware

/-! ## `internal/infrastructure/transport/http/utils`: `response` and `request` -/

namespace response

/-- Go `response.Response`. -/
structure Response where
  Status : String
  Error : String
  deriving DecidableEq, Repr

/-- Go `response.StatusError`. -/
def StatusError : String := "ERROR"

/-- What the handlers pass to `WriteJson`: a `map[string]string` or a `Response`. -/
inductive Data where
  | map (fields : List (String × String))
  | response (r : Response)
  deriving DecidableEq, Repr

/-- A JSON string literal; escaping is not modelled, no statement reads a body. -/
def quote (s : String) : String := "\"" ++ s ++ "\""

/-- The members of a JSON object, comma separated. -/
def members : List (String × String) → String
  | [] => ""
  | [kv] => quote kv.1 ++ ":" ++ quote kv.2
  | kv :: rest => quote kv.1 ++ ":" ++ quote kv.2 ++ "," ++ members rest

/-- The line `json.NewEncoder(w).Encode(data)` writes. -/
def Data.encode : Data → String
  | Data.map fields => "\x7b" ++ members fields ++ "\x7d\n"
  | Data.response r =>
    "\x7b" ++ members [("status", r.Status), ("error", r.Error)] ++ "\x7d\n"

/-- Go `response.WriteJson` (the `Content-Type` header is not modelled). -/
def WriteJson (rw : http.Response) (status : Nat) (data : Data) : http.Response :=
  (rw.WriteHeader status).Write data.encode

/-- Go `response.GeneralError`. -/
def GeneralError (err : Err) : Data :=
  Data.response { Status := StatusError, Error := err.Error }

/-- Go `response.ValidationError`, over the struct validator taken as a parameter
(`validate` returns the error `ValidationError` returns, already reworded). -/
def ValidationError {α : Type} (validate : α → Option Err) (entity : α) : Option Err :=
  validate entity

/-- Go `response.SetTokenCookies`. -/
def SetTokenCookies (rw : http.Response) (accessToken refreshToken : Token) (env : String) :
    http.Response :=
  let rw := http.SetCookie rw
    { Name := "access_token", Value := accessToken, MaxAge := 15 * 60, HttpOnly := true,
      Secure := decide (env ≠ "dev"), Path := "/", SameSite := http.SameSite.SameSiteLaxMode }
  http.SetCookie rw
    { Name := "refresh_token", Value := refreshToken, MaxAge := 7 * 24 * 60 * 60,
      HttpOnly := true, Secure := decide (env ≠ "dev"), Path := "/",
      SameSite := http.SameSite.SameSiteLaxMode }

/-- Go `response.DeleteTokenCookies`. -/
def DeleteTokenCookies (rw : http.Response) (env : String) : http.Response :=
  let rw := http.SetCookie rw
    { Name := "access_token", Value := Token.empty, Path := "/", MaxAge := -1, HttpOnly := true,
      Secure := decide (env ≠ "dev"), SameSite := http.SameSite.SameSiteLaxMode }
  http.SetCookie rw
    { Name := "refresh_token", Value := Token.empty, Path := "/", MaxAge := -1, HttpOnly := true,
      Secure := decide (env ≠ "dev"), SameSite := http.SameSite.SameSiteLaxMode }

end response

namespace request

/-- Go `io.EOF`. -/
def ioEOF : Err := Err.sentinel "EOF"

/-- Go `request.ParseJSON[T]`, over the JSON decoding of the body into a `T` taken as a
parameter; the nil result of the error paths is embedded as `zero`. -/
def ParseJSON {α : Type} (decode : String → α × Option Err) (zero : α) (r : http.Request) :
    α × Option Err :=
  let d := decode r.Body
  let data := d.1
  let err := d.2
  if errorsIs err ioEOF then (zero, err.map (Err.wrap "failed to decode JSON"))
  else if err.isSome then (zero, some (Err.new "invalid request body"))
  else (data, err)

end request

/-- Go `entity.Login`. -/
structure entity.Login where
  Email : String
  Password : String
  deriving DecidableEq, Repr

/-- The zero value of `entity.Login`. -/
def entity.Login.zero : entity.Login := { Email := "", Password := "" }

/-! ## `internal/infrastructure/transport/http/handler/auth.go` -/

namespace handler

/-- The libraries behind `ParseJSON` and `ValidationError`, taken as parameters:
`encoding/json` decoding a body into each request type, and the struct validator. -/
structure Codec where
  decodeUser : String → entity.User × Option Err
  decodeLogin : String → entity.Login × Option Err
  validateUser : entity.User → Option Err
  validateLogin : entity.Login → Option Err

/-- Go `AuthHandler`, with the two libraries its methods reach. -/
structure AuthHandler where
  UC : usecase.AuthUseCase
  ENV : String
  bc : bcrypt.Impl
  codec : Codec

namespace AuthHandler

/-- Go `(*AuthHandler).register`. -/
def register (h : AuthHandler) : http.Handler :=
  fun r w =>
    let rw := http.Response.fresh
    let p := request.ParseJSON h.codec.decodeUser entity.User.zero r
    let user := p.1
    match p.2 with
    | some err => (response.WriteJson rw http.StatusBadRequest (response.GeneralError err), w)
    | none =>
      match response.ValidationError h.codec.validateUser user with
      | some err => (response.WriteJson rw http.StatusBadRequest (response.GeneralError err), w)
      | none =>
        let s := h.UC.RegisterUser h.bc user w
        let access_token := s.1.1
        let refresh_token := s.1.2.1
        let w := s.2
        match s.1.2.2 with
        | some err =>
          (response.WriteJson rw http.StatusInternalServerError (response.GeneralError err), w)
        | none =>
          let rw := response.SetTokenCookies rw access_token refresh_token h.ENV
          (response.WriteJson rw http.StatusOK
            (response.Data.map
              [("status", "success"), ("message", "user registered successfully")]), w)

/-- Go `(*AuthHandler).login`. -/
def login (h : AuthHandler) : http.Handler :=
  fun r w =>
    let rw := http.Response.fresh
    let p := request.ParseJSON h.codec.decodeLogin entity.Login.zero r
    let user := p.1
    match p.2 with
    | some err => (response.WriteJson rw http.StatusBadRequest (response.GeneralError err), w)
    | none =>
      match response.ValidationError h.codec.validateLogin user with
      | some err => (response.WriteJson rw http.StatusBadRequest (response.GeneralError err), w)
      | none =>
        let s := h.UC.LoginUser h.bc user.Email user.Password w
        let access_token := s.1.1
        let refresh_token := s.1.2.1
        let w := s.2
        match s.1.2.2 with
        | some err => (response.WriteJson rw http.StatusBadRequest (response.GeneralError err), w)
        | none =>
          let rw := response.SetTokenCookies rw access_token refresh_token h.ENV
          (response.WriteJson rw http.StatusOK
            (response.Data.map
              [("status", "success"), ("message", "user logged in successfully")]), w)

/-- Go `(*AuthHandler).logout`.  The error `LogoutUser` returns is not read. -/
def logout (h : AuthHandler) : http.Handler :=
  fun r w =>
    let rw := http.Response.fresh
    let g := middleware.GetUserIDFromContext r.ctx
    let id := g.1
    match g.2 with
    | some err =>
      let rw :=
        if err = sql.ErrNoRows then
          response.WriteJson rw http.StatusBadRequest
            (response.GeneralError (Err.new "user not found"))
        else rw
      (response.WriteJson rw http.StatusBadRequest (response.GeneralError err), w)
    | none =>
      let w := (h.UC.LogoutUser id w).2
      let rw := response.DeleteTokenCookies rw h.ENV
      (response.WriteJson rw http.StatusOK
        (response.Data.map [("status", "success"), ("message", "user logged out successfully")]),
        w)

/-- Go `(*AuthHandler).refresh`: the results of `RefreshSession` are read in the order
`refresh, access, err` and passed to `SetTokenCookies` as `(access, refresh)`. -/
def refresh (h : AuthHandler) : http.Handler :=
  fun r w =>
    let rw := http.Response.fresh
    match r.Cookie "refresh_token" with
    | none =>
      (response.WriteJson rw http.StatusUnauthorized
        (response.GeneralError (Err.new "refresh token not found")), w)
    | some refreshCookie =>
      let s := h.UC.RefreshSession refreshCookie.Value w
      let refresh := s.1.1
      let access := s.1.2.1
      let w := s.2
      match s.1.2.2 with
      | some err =>
        (response.WriteJson rw http.StatusUnauthorized (response.GeneralError err), w)
      | none =>
        let rw := response.SetTokenCookies rw access refresh h.ENV
        (response.WriteJson rw http.StatusOK
          (response.Data.map
            [("status", "success"), ("message", "session refreshed successfully")]), w)

end AuthHandler

/-- Go `NewAuthHandler`, next to the libraries its methods reach. -/
def NewAuthHandler (uc : usecase.AuthUseCase) (env : String) (bc : bcrypt.Impl)
    (codec : Codec) : AuthHandler :=
  { UC := uc, ENV := env, bc := bc, codec := codec }

end handler

/-! ## Vocabulary of the statements -/

/-- Whether `float64` holds the integer `n` exactly (every integer up to `2 ^ 53` in
magnitude); used for the instants a token's `exp` claim carries. -/
def float64Exact (n : Int) : Prop := -(2 ^ 53 : Int) ≤ n ∧ n ≤ 2 ^ 53

instance (n : Int) : Decidable (float64Exact n) := by unfold float64Exact; infer_instance

/-- The refresh token that `RefreshSession` would compare the presented one with: the live
value stored under the subject the presented token verifies to, if there is one. -/
def storedForSubject (s : service.JWTTokenService) (refreshToken : Token) (w : World) :
    Option Token :=
  let v := s.VerifyRefreshToken refreshToken w
  let p := strconvParseInt v.1
  if v.2.isSome || p.2.isSome then none else w.rdb.lookup w.now (fmtSprint p.1)

/-- The refresh token `tok` is what the store holds for subject `id` in `w`: it is the live
value under the subject's key, the only entry under that key, and what `GetRefreshToken`
returns when the store answers. -/
def holdsExactly (s : service.JWTTokenService) (w : World) (id : Int) (tok : Token) : Prop :=
  w.rdb.lookup w.now (fmtSprint id) = some tok ∧
    (w.rdb.entries.filter (fun e => e.key = fmtSprint id)).length = 1 ∧
    (w.rdb.failing = false → (s.GetRefreshToken id w).1 = (tok, none))

/-- The claim `key` a token carries on the wire, as it was written at issuance. -/
def Token.claim (tok : Token) (key : String) : Option jwt.JSON :=
  match tok with
  | Token.raw _ => none
  | Token.jws input _ => input.claims.lookup key

namespace Rotation

/-- The refresh token issued for subject `u` in the world `w0`. -/
def issued (s : service.JWTTokenService) (u : Int) (w0 : World) : Token :=
  (s.GenerateRefreshToken u w0).1

/-- The world once that token has been stored, when the clock reads `t`. -/
def stored (s : service.JWTTokenService) (u : Int) (w0 : World) (t : Int) : World :=
  { (s.StoreRefreshToken u (issued s u w0) w0).2 with now := t }

/-- The exchange of that token at second `t`. -/
def first (s : service.JWTTokenService) (u : Int) (w0 : World) (t : Int) :
    usecase.Tokens × World :=
  usecase.AuthUseCase.RefreshSession (usecase.wired s) (issued s u w0) (stored s u w0 t)

/-- A second exchange of the same token, right after the first. -/
def second (s : service.JWTTokenService) (u : Int) (w0 : World) (t : Int) :
    usecase.Tokens × World :=
  usecase.AuthUseCase.RefreshSession (usecase.wired s) (issued s u w0) (first s u w0 t).2

end Rotation

/-- The refresh token stored for subject `b` is in `w'` what it is in `w`, at every
instant. -/
def sameSessionOf (b : Int) (w w' : World) : Prop :=
  ∀ t, w'.rdb.lookup t (fmtSprint b) = w.rdb.lookup t (fmtSprint b)

/-! ## Concrete data for the closed statements -/

namespace Fixture

/-- A token service whose public key matches its private key. -/
def tokens : service.JWTTokenService :=
  { PublicAccessSecret := ⟨7⟩, AccessSecret := ⟨7⟩, RefreshSecret := "refresh-secret" }

/-- A concrete `bcrypt` for the examples: the hash is the password behind a tag, whatever
the salt, and comparison recomputes it. -/
def hasher : bcrypt.Impl where
  GenerateFromPassword := fun _ password _ => ("$2a$10$" ++ password, none)
  CompareHashAndPassword := fun hashed password =>
    if hashed = "$2a$10$" ++ password then none
    else some (Err.sentinel "crypto/bcrypt: hashedPassword is not the hash of the given password")

/-- An empty deployment, at some instant. -/
def start : World :=
  { now := 1700000000, rdb := { entries := [], faults := [] },
    db := { users := [], nextID := 1, faults := [], log := [] }, salt := 0 }

/-- The registration request of a user. -/
def alice : entity.User :=
  { entity.User.zero with Username := "alice", Email := "alice@example.com", Password := "hunter22" }

/-- The same user as `RegisterUser` hands her to `Create`, the password hashed. -/
def aliceHashed : entity.User := { alice with Password := "$2a$10$hunter22" }

/-- The deployment after `alice` has registered. -/
def registered : usecase.Tokens × World :=
  usecase.AuthUseCase.RegisterUser (usecase.wired tokens) hasher alice start

/-- A first login, five seconds later. -/
def firstLogin : usecase.Tokens × World :=
  usecase.AuthUseCase.LoginUser (usecase.wired tokens) hasher "alice@example.com" "hunter22"
    { registered.2 with now := 1700000005 }

/-- A second login of the same user, five seconds after the first. -/
def secondLogin : usecase.Tokens × World :=
  usecase.AuthUseCase.LoginUser (usecase.wired tokens) hasher "alice@example.com" "hunter22"
    { firstLogin.2 with now := 1700000010 }

/-- A body decoder and a validator that let `alice` through. -/
def codec : handler.Codec where
  decodeUser := fun _ => (alice, none)
  decodeLogin := fun _ => ({ Email := "alice@example.com", Password := "hunter22" }, none)
  validateUser := fun _ => none
  validateLogin := fun _ => none

/-- The handler over the wired use case, in the `dev` environment. -/
def authHandler : handler.AuthHandler :=
  handler.NewAuthHandler (usecase.wired tokens) "dev" hasher codec

/-- A request to the refresh endpoint presenting `tok`. -/
def refreshRequest (tok : Token) : http.Request :=
  { Path := "/api/v1/auth/refresh/", Cookies := [{ Name := "refresh_token", Value := tok }],
    ctx := { user := none } }

/-- A token service with another key pair and another secret. -/
def intruder : service.JWTTokenService :=
  { PublicAccessSecret := ⟨8⟩, AccessSecret := ⟨8⟩, RefreshSecret := "guess" }

/-- The deployment at startup, with the key pair of `tokens` in the files `main` names. -/
def disk : World :=
  { start with
    files := [("keys/private.pem", os.Bytes.privateKeyPEM ⟨7⟩),
              ("keys/public.pem", os.Bytes.publicKeyPEM ⟨7⟩)] }

/-- The same deployment after the file `keys/public.pem` has been replaced. -/
def diskReplaced : World :=
  { start with
    files := [("keys/private.pem", os.Bytes.privateKeyPEM ⟨7⟩),
              ("keys/public.pem", os.Bytes.publicKeyPEM ⟨9⟩)] }

/-- A deployment that keeps the key pair of `tokens` under another directory, next to an
unrelated `keys/public.pem`. -/
def diskElsewhere : World :=
  { start with
    files := [("secrets/private.pem", os.Bytes.privateKeyPEM ⟨7⟩),
              ("secrets/public.pem", os.Bytes.publicKeyPEM ⟨7⟩),
              ("keys/public.pem", os.Bytes.publicKeyPEM ⟨9⟩)] }

/-- The deployment after the second login, with a store whose next command fails. -/
def outage : World :=
  { secondLogin.2 with rdb := { secondLogin.2.rdb with faults := [true] } }

/-- The logout request of subject 1, as the gate hands it on. -/
def logoutRequest : http.Request :=
  { Path := "/api/v1/auth/logout/", Cookies := [], ctx := { user := some 1 } }

/-- The registration request of a second user. -/
def bob : entity.User :=
  { entity.User.zero with Username := "bob", Email := "bob@example.com", Password := "tr0ub4dor" }

/-- The deployment after `bob` has registered too, once `alice` has logged in twice. -/
def both : usecase.Tokens × World :=
  usecase.AuthUseCase.RegisterUser (usecase.wired tokens) hasher bob secondLogin.2

/-- The error `SignedString` passes on from `rsa.SignPKCS1v15` for a private key too short
to hold the encoded SHA-256 digest. -/
def signingError : Err := Err.sentinel "crypto/rsa: message too long for RSA key size"

/-- The token service of `tokens` behind the interface, with such a private key: the store
and the refresh tokens work as before, signing an access token fails. -/
def unsignable : interfaces.TokenService :=
  { tokens.asTokenService with
    GenerateAccessToken := fun _ _ => (Token.empty, some signingError) }

/-- The use case over the SQL repository and that token service. -/
def brokenSigner : usecase.AuthUseCase :=
  usecase.NewAuthUseCase repository.UserRepo unsignable

/-- The deployment ten seconds after the second login of `alice`. -/
def later : World := { secondLogin.2 with now := 1700000020 }

/-- The user use case over the SQL repository, as `main` wires it. -/
def users : usecase.UserUseCase := usecase.NewUserUseCase repository.UserRepo

/-- The deployment after `alice` has been created through `UserUseCase.CreateUser`. -/
def created : Option Err × World := usecase.UserUseCase.CreateUser users alice start

/-- The profile `alice` submits to change her password. -/
def aliceRenewed : entity.User := { alice with Password := "s3cret-new" }

/-- The deployment after the registered `alice` has updated her own profile. -/
def updated : Option Err × World :=
  usecase.AuthUseCase.UpdateAuthUserProfile (usecase.wired tokens) 1 aliceRenewed registered.2

/-- The deployment after the same update has gone through `UserUseCase.UpdateUserById`. -/
def updatedById : Option Err × World :=
  usecase.UserUseCase.UpdateUserById users 1 aliceRenewed registered.2

/-- A handler that answers 200 and says which subject the context carries. -/
def echo : http.Handler :=
  fun r w =>
    match r.ctx.user with
    | none => ({ status := http.StatusOK, body := "no user" }, w)
    | some id => ({ status := http.StatusOK, body := "user " ++ fmtSprint id }, w)

/-- A request for the profile endpoint with the given cookies. -/
def profileRequest (cookies : List http.Cookie) : http.Request :=
  { Path := "/api/v1/auth/profile/", Cookies := cookies, ctx := { user := none } }

/-- A request without cookies for a path under the profile endpoint that ends in `login`. -/
def unlisted : http.Request :=
  { Path := "/api/v1/auth/profile/login", Cookies := [], ctx := { user := none } }

end Fixture

/-! ## Library facts used by the proofs -/

open service service.JWTTokenService usecase usecase.AuthUseCase middleware http

/-- The character of a decimal digit has the code point of that digit. -/
theorem digitChar_toNat (d : Nat) (h : d < 10) : (digitChar d).toNat = 48 + d := by
  interval_cases d <;> rfl

/-- Reading one digit character shifts the accumulator by that digit. -/
theorem parseDigits_digitChar (d : Nat) (h : d < 10) (cs : List Char) (acc : Nat) :
    parseDigits (digitChar d :: cs) acc = parseDigits cs (acc * 10 + d) := by
  have ht := digitChar_toNat d h
  simp only [parseDigits, ht]
  have h1 : 48 ≤ 48 + d ∧ 48 + d ≤ 57 := by omega
  simp [h1]

/-- Reading back the digits that `decDigits` pushed resumes with the number printed. -/
theorem parseDigits_decDigits (fuel : Nat) : ∀ (n : Nat) (acc : List Char), n < fuel →
    parseDigits (decDigits fuel n acc) 0 = parseDigits acc n := by
  induction fuel with
  | zero => intro n acc h; omega
  | succ fuel ih =>
    intro n acc h
    unfold decDigits
    by_cases h10 : n < 10
    · simp only [h10, if_true]
      rw [parseDigits_digitChar n h10]; simp
    · simp only [h10, if_false]
      rw [ih (n / 10) _ (by omega), parseDigits_digitChar _ (Nat.mod_lt _ (by norm_num))]
      congr 1; omega

/-- The rendering of a number starts with a digit character. -/
theorem decDigits_head (fuel : Nat) : ∀ (n : Nat) (acc : List Char), n < fuel →
    ∃ d rest, d < 10 ∧ decDigits fuel n acc = digitChar d :: rest := by
  induction fuel with
  | zero => intro n acc h; omega
  | succ fuel ih =>
    intro n acc h
    unfold decDigits
    by_cases h10 : n < 10
    · exact ⟨n, acc, h10, by simp [h10]⟩
    · simp only [h10, if_false]
      exact ih (n / 10) _ (by omega)

/-- A digit character is neither sign character. -/
theorem digitChar_ne_sign (d : Nat) (h : d < 10) : digitChar d ≠ '-' ∧ digitChar d ≠ '+' := by
  interval_cases d <;> decide

/-- The decimal rendering of a natural number parses back to it. -/
theorem parseMagnitude_formatNat (m : Nat) : parseMagnitude (formatNat m) = some m := by
  obtain ⟨d, rest, _, hd⟩ := decDigits_head (m + 1) m [] (by omega)
  have hp := parseDigits_decDigits (m + 1) m [] (by omega)
  unfold formatNat
  rw [hd] at hp ⊢
  show parseDigits (digitChar d :: rest) 0 = some m
  rw [hp]; rfl

/-- `strconv.ParseInt` inverts `fmt.Sprint` on every `int64`. -/
theorem strconvParseInt_fmtSprint (n : Int) (h : isInt64 n) :
    strconvParseInt (fmtSprint n) = (n, none) := by
  obtain ⟨hlo, hhi⟩ := h
  cases n with
  | ofNat m =>
    obtain ⟨d, rest, hd10, hd⟩ := decDigits_head (m + 1) m [] (by omega)
    have hm := parseMagnitude_formatNat m
    have hs := digitChar_ne_sign d hd10
    unfold formatNat at hm
    have hlt : m < 2 ^ 63 := by
      have : (m : Int) < 2 ^ 63 := hhi
      exact_mod_cast this
    simp only [strconvParseInt, fmtSprint, formatNat, hd, hs.1, hs.2, if_false]
    rw [← hd, hm]
    simp only [if_pos hlt]; rfl
  | negSucc m =>
    have hm := parseMagnitude_formatNat (m + 1)
    have hle : m + 1 ≤ 2 ^ 63 := by
      have h1 : -(2 ^ 63 : Int) ≤ Int.negSucc m := hlo
      rw [Int.negSucc_eq] at h1
      have : ((m + 1 : Nat) : Int) ≤ 2 ^ 63 := by push_cast; omega
      exact_mod_cast this
    simp only [strconvParseInt, fmtSprint, if_true, hm, if_pos hle]
    simp [Int.negSucc_eq]

/-- Integers of magnitude at most `2 ^ 53` survive the trip through `float64`. -/
theorem float64OfInt_exact (n : Int) (h : -(2 ^ 53 : Int) ≤ n ∧ n ≤ 2 ^ 53) : float64OfInt n = n := by
  have key : ∀ m : Nat, m ≤ 2 ^ 53 → float64OfNat m = m := by
    intro m hm
    by_cases hlt : m < 2 ^ 53
    · unfold float64OfNat; rw [if_pos hlt]
    · have : m = 2 ^ 53 := by omega
      subst this
      decide
  obtain ⟨hlo, hhi⟩ := h
  cases n with
  | ofNat m =>
    have : m ≤ 2 ^ 53 := by
      have : (m : Int) ≤ 2 ^ 53 := hhi
      exact_mod_cast this
    simp [float64OfInt, key m this]
  | negSucc m =>
    have : m + 1 ≤ 2 ^ 53 := by
      rw [Int.negSucc_eq] at hlo
      have : ((m + 1 : Nat) : Int) ≤ 2 ^ 53 := by push_cast; omega
      exact_mod_cast this
    simp [float64OfInt, key (m + 1) this, Int.negSucc_eq]

/-- Zero is a `float64`. -/
theorem float64OfInt_zero : float64OfInt 0 = 0 := by decide

/-- A presented token other than the live stored value of its subject: `RefreshSession`
returns empty strings and changes neither the store entries, nor the database, nor the
clock. -/
theorem refreshSession_unhonoured (s : JWTTokenService) (tok : Token) (w : World)
    (h : storedForSubject s tok w ≠ some tok) :
    (RefreshSession (wired s) tok w).1.1 = Token.empty ∧
      (RefreshSession (wired s) tok w).1.2.1 = Token.empty ∧
      (RefreshSession (wired s) tok w).2.rdb.entries = w.rdb.entries ∧
      (RefreshSession (wired s) tok w).2.db = w.db ∧
      (RefreshSession (wired s) tok w).2.now = w.now := by
  unfold storedForSubject at h
  simp only [RefreshSession, wired, NewAuthUseCase, JWTTokenService.asTokenService]
  by_cases hv : (s.VerifyRefreshToken tok w).2.isSome
  · simp [hv, failed]
  · by_cases hp : (strconvParseInt (s.VerifyRefreshToken tok w).1).2.isSome
    · simp [hv, hp, failed]
    · simp only [hv, hp, Bool.or_self, Bool.false_eq_true, if_false] at h
      simp only [hv, hp, Bool.false_eq_true, if_false, GetRefreshToken, redis.Client.Get]
      by_cases hf : w.rdb.failing
      · simp [hf, failed, redis.Client.step]
      · cases hl : w.rdb.lookup w.now (fmtSprint (strconvParseInt (s.VerifyRefreshToken tok w).1).1) with
        | none => simp [hf, hl, failed, redis.Client.step, redis.Nil]
        | some v =>
          have hne : v ≠ tok := by
            intro he; apply h; rw [hl, he]
          simp [hf, hl, failed, redis.Client.step, hne]
/-- The token `GenerateRefreshToken` builds; it never fails. -/
theorem generateRefreshToken_ok (s : JWTTokenService) (u : Int) (w : World) :
    s.GenerateRefreshToken u w =
      (Token.jws
        { alg := some "HS256",
          claims := [("exp", jwt.JSON.num (w.now + refreshTTL)), ("userId", jwt.JSON.str (fmtSprint u))] }
        (jwt.Signature.hmac "HS256" s.RefreshSecret
          { alg := some "HS256",
            claims := [("exp", jwt.JSON.num (w.now + refreshTTL)),
              ("userId", jwt.JSON.str (fmtSprint u))] }), none) := by
  simp [GenerateRefreshToken, generateJWT, jwt.SignedString, jwt.GetSigningMethod, jwt.Sign]

/-- A generated refresh token verifies to the rendering of its subject until it expires. -/
theorem verifyRefreshToken_generated (s : JWTTokenService) (u : Int) (w w' : World)
    (hclock : float64Exact (w.now + refreshTTL)) (hlive : w'.now < w.now + refreshTTL) :
    s.VerifyRefreshToken (s.GenerateRefreshToken u w).1 w' = (fmtSprint u, none) := by
  have h2 := float64OfInt_exact _ hclock
  rw [generateRefreshToken_ok]
  by_cases h0 : w.now + refreshTTL = 0 <;>
  simp [VerifyRefreshToken, jwt.GetSigningMethod, jwt.ParseWithClaims, jwt.Verify,
    jwt.Validate, jwt.verifyExpiresAt, jwt.verifyNotBefore, jwt.parseNumericDate,
    jwt.MapClaims.get, jwt.decodeClaims, jwt.decodeValue, h2, List.lookup, h0, hlive,
    float64OfInt_zero, errorsIs]

/-- A successful `Set` makes the value the live one under its key for the time to live. -/
theorem redis_lookup_Set (c : redis.Client) (now t ttl : Int) (key : String) (v : Token)
    (hf : c.failing = false) (hlive : t < now + ttl) :
    (c.Set now key v ttl).1 = none ∧ (c.Set now key v ttl).2.lookup t key = some v ∧
      (c.Set now key v ttl).2.faults = c.faults.tail := by
  simp [redis.Client.Set, hf, redis.Client.lookup, redis.Client.step, List.find?, hlive]

/-- `Get` on a live key of an answering server returns its value. -/
theorem redis_Get_of_lookup (c : redis.Client) (now : Int) (key : String) (v : Token)
    (hf : c.failing = false) (h : c.lookup now key = some v) :
    c.Get now key = ((v, none), c.step) := by
  simp [redis.Client.Get, hf, h]

/-- The presented token is the live stored value of its subject and the store works:
`RefreshSession` returns the new refresh token, the new access token and nil, and the
store then holds the new refresh token. -/
theorem refreshSession_honoured (s : JWTTokenService) (tok : Token) (w : World)
    (h : storedForSubject s tok w = some tok) (hf : w.rdb.faults = []) :
    (RefreshSession (wired s) tok w).1 =
        ((s.GenerateRefreshToken (strconvParseInt (s.VerifyRefreshToken tok w).1).1 w).1,
         (s.GenerateAccessToken (strconvParseInt (s.VerifyRefreshToken tok w).1).1 w).1, none) ∧
      (RefreshSession (wired s) tok w).2.rdb.lookup w.now
          (fmtSprint (strconvParseInt (s.VerifyRefreshToken tok w).1).1) =
        some (s.GenerateRefreshToken (strconvParseInt (s.VerifyRefreshToken tok w).1).1 w).1 ∧
      (RefreshSession (wired s) tok w).2.rdb.faults = [] ∧
      (RefreshSession (wired s) tok w).2.now = w.now := by
  unfold storedForSubject at h
  have hfail : w.rdb.failing = false := by simp [redis.Client.failing, hf]
  by_cases hv : (s.VerifyRefreshToken tok w).2.isSome
  · simp [hv] at h
  · by_cases hp : (strconvParseInt (s.VerifyRefreshToken tok w).1).2.isSome
    · simp [hv, hp] at h
    · simp only [hv, hp, Bool.or_self, Bool.false_eq_true, if_false] at h
      have hga : ∀ p ww, (s.GenerateAccessToken p ww).2 = none := by
        intro p ww
        simp [GenerateAccessToken, jwt.SignedString, jwt.GetSigningMethod, jwt.Sign]
      have hgr : ∀ p ww, (s.GenerateRefreshToken p ww).2 = none := by
        intro p ww; rw [generateRefreshToken_ok]
      have hget := redis_Get_of_lookup w.rdb w.now _ tok hfail h
      have hstep : w.rdb.step.failing = false := by
        simp [redis.Client.failing, redis.Client.step, hf]
      have hlive : w.now < w.now + refreshTTL := by simp [refreshTTL]
      have hset := redis_lookup_Set w.rdb.step w.now w.now refreshTTL
        (fmtSprint (strconvParseInt (s.VerifyRefreshToken tok w).1).1)
        (s.GenerateRefreshToken (strconvParseInt (s.VerifyRefreshToken tok w).1).1 w).1 hstep hlive
      obtain ⟨hs1, hs2, hs3⟩ := hset
      have hgr' : ∀ p (r : redis.Client), (s.GenerateRefreshToken p { w with rdb := r }) =
          s.GenerateRefreshToken p w := by
        intro p r; rw [generateRefreshToken_ok, generateRefreshToken_ok]
      simp only [RefreshSession, wired, NewAuthUseCase, JWTTokenService.asTokenService, hv, hp,
        GetRefreshToken, hget, hga, hgr, StoreRefreshToken, hgr', hs1, Bool.false_eq_true,
        if_false, Option.isSome_none, ne_eq, not_true_eq_false]
      refine ⟨?_, hs2, ?_, trivial⟩
      · simp [GenerateAccessToken]
      · rw [hs3]; simp [redis.Client.step, hf]

/-! ## C1: verifying a freshly issued access token -/

/-- C1 (amended): with a matching key pair, for every subject identifier that `float64`
holds exactly (magnitude at most `2 ^ 53`), `GenerateAccessToken` succeeds and `VerifyToken`
on its token, at any instant before the expiry, returns exactly that identifier and no
error.  The expiry instant is taken in the same exact range. -/
theorem C1_verify_generated_access_token (s : JWTTokenService) (userID : Int) (w w' : World)
    (hkey : s.AccessSecret.PublicKey = s.PublicAccessSecret)
    (hid : float64Exact userID)
    (hclock : float64Exact (w.now + accessTTL))
    (hbefore : w'.now < w.now + accessTTL) :
    (s.GenerateAccessToken userID w).2 = none ∧
      s.VerifyToken (s.GenerateAccessToken userID w).1 w' = (userID, none) := by
  have hrange : isInt64 userID := by
    unfold float64Exact at hid
    unfold isInt64; constructor <;> omega
  have h1 := float64OfInt_exact _ hid
  have h2 := float64OfInt_exact _ hclock
  by_cases h0 : w.now + accessTTL = 0 <;>
  simp [GenerateAccessToken, VerifyToken, jwt.SignedString, jwt.GetSigningMethod, jwt.Sign,
    jwt.Parse, jwt.ParseWithClaims, jwt.Verify, hkey, jwt.Validate, jwt.verifyExpiresAt,
    jwt.verifyNotBefore, jwt.parseNumericDate, jwt.MapClaims.get, jwt.decodeClaims,
    jwt.decodeValue, h1, h2, int64OfFloat, hrange, List.lookup, h0, hbefore,
    float64OfInt_zero]

/-- C1, an instance: subject 42 issued and verified at the same instant. -/
theorem C1_verify_generated_access_token_witness :
    Fixture.tokens.AccessSecret.PublicKey = Fixture.tokens.PublicAccessSecret ∧
      float64Exact 42 ∧
      float64Exact (Fixture.start.now + service.accessTTL) ∧
      Fixture.start.now < Fixture.start.now + service.accessTTL ∧
      Fixture.tokens.VerifyToken (Fixture.tokens.GenerateAccessToken 42 Fixture.start).1
        Fixture.start = (42, none) :=
  ⟨by decide, by decide, by decide, by decide,
    (C1_verify_generated_access_token Fixture.tokens 42 Fixture.start Fixture.start
      (by decide) (by decide) (by decide) (by decide)).2⟩

/-- C1 as stated fails: the `int64` subject `2 ^ 53 + 1` is issued without error, and the
token, verified at once under the matching key, yields `2 ^ 53`. -/
theorem C1_counterexample_subject_beyond_float64 :
    Fixture.tokens.AccessSecret.PublicKey = Fixture.tokens.PublicAccessSecret ∧
      isInt64 9007199254740993 ∧
      (Fixture.tokens.GenerateAccessToken 9007199254740993 Fixture.start).2 = none ∧
      Fixture.tokens.VerifyToken
        (Fixture.tokens.GenerateAccessToken 9007199254740993 Fixture.start).1 Fixture.start =
        (9007199254740992, none) := by
  decide

/-! ## C2: a stale refresh token -/

/-- C2, the code at the failing input: both logins succeed, the first login's refresh
token still verifies, the value stored for its subject is the second login's token and
differs from it, and `RefreshSession` returns two empty strings with a nil error. -/
theorem C2_stale_token_gets_nil_error :
    Fixture.firstLogin.1.2.2 = none ∧ Fixture.secondLogin.1.2.2 = none ∧
      Fixture.tokens.VerifyRefreshToken Fixture.firstLogin.1.2.1
        { Fixture.secondLogin.2 with now := 1700000011 } = ("1", none) ∧
      storedForSubject Fixture.tokens Fixture.firstLogin.1.2.1
        { Fixture.secondLogin.2 with now := 1700000011 } = some Fixture.secondLogin.1.2.1 ∧
      Fixture.secondLogin.1.2.1 ≠ Fixture.firstLogin.1.2.1 ∧
      (usecase.AuthUseCase.RefreshSession (usecase.wired Fixture.tokens)
        Fixture.firstLogin.1.2.1 { Fixture.secondLogin.2 with now := 1700000011 }).1 =
        (Token.empty, Token.empty, none) := by
  decide

/-! ## C3: only the stored refresh token is honoured -/

/-- C3: whenever the presented refresh token is not the live value stored for the subject
it verifies to (it does not verify, its subject does not parse, nothing is stored, or
something else is stored), `RefreshSession` returns two empty strings and leaves the
entries of the refresh-token store as they were. -/
theorem C3_only_stored_token_honoured (s : JWTTokenService) (refreshToken : Token)
    (w : World) (h : storedForSubject s refreshToken w ≠ some refreshToken) :
    (RefreshSession (wired s) refreshToken w).1.1 = Token.empty ∧
      (RefreshSession (wired s) refreshToken w).1.2.1 = Token.empty ∧
      (RefreshSession (wired s) refreshToken w).2.rdb.entries = w.rdb.entries := by
  obtain ⟨h1, h2, h3, _, _⟩ := refreshSession_unhonoured s refreshToken w h
  exact ⟨h1, h2, h3⟩

/-- C3, an instance: the first login's refresh token after a second login. -/
theorem C3_only_stored_token_honoured_witness :
    storedForSubject Fixture.tokens Fixture.firstLogin.1.2.1
        { Fixture.secondLogin.2 with now := 1700000011 } ≠ some Fixture.firstLogin.1.2.1 ∧
      (usecase.AuthUseCase.RefreshSession (usecase.wired Fixture.tokens)
        Fixture.firstLogin.1.2.1
        { Fixture.secondLogin.2 with now := 1700000011 }).2.rdb.entries =
        Fixture.secondLogin.2.rdb.entries :=
  ⟨by decide,
    (C3_only_stored_token_honoured Fixture.tokens Fixture.firstLogin.1.2.1
      { Fixture.secondLogin.2 with now := 1700000011 } (by decide)).2.2⟩

/-! ## C4: rotation -/

/-- C4 (amended): for every `int64` subject, once a refresh token is issued and stored (the
store working), `RefreshSession` with that exact token at any later clock second before
its expiry succeeds, and the refresh token it yields (first result) is non-empty, differs
from the presented one and is what the store now holds; a second `RefreshSession` with the
original token then yields no tokens and leaves the store as it is. -/
theorem C4_rotation_at_a_later_second (s : JWTTokenService) (u : Int) (w0 : World) (t : Int)
    (hu : isInt64 u) (hstore : w0.rdb.faults = [])
    (hclock : float64Exact (w0.now + refreshTTL))
    (hlater : w0.now < t) (hlive : t < w0.now + refreshTTL) :
    (Rotation.first s u w0 t).1.2.2 = none ∧
      (Rotation.first s u w0 t).1.1 ≠ Rotation.issued s u w0 ∧
      (Rotation.first s u w0 t).1.1 ≠ Token.empty ∧
      (Rotation.first s u w0 t).2.rdb.lookup t (fmtSprint u) =
        some (Rotation.first s u w0 t).1.1 ∧
      (Rotation.second s u w0 t).1.1 = Token.empty ∧
      (Rotation.second s u w0 t).1.2.1 = Token.empty ∧
      (Rotation.second s u w0 t).2.rdb.entries = (Rotation.first s u w0 t).2.rdb.entries := by
  unfold Rotation.second Rotation.first Rotation.stored Rotation.issued
  generalize htok : (s.GenerateRefreshToken u w0).1 = tok
  generalize hw1 : ({ (s.StoreRefreshToken u tok w0).2 with now := t } : World) = w1
  have hfail : w0.rdb.failing = false := by simp [redis.Client.failing, hstore]
  obtain ⟨_, hlook, hfaults⟩ :=
    redis_lookup_Set w0.rdb w0.now t refreshTTL (fmtSprint u) tok hfail hlive
  have hnow1 : w1.now = t := by rw [← hw1]
  have hrdb1 : w1.rdb = (w0.rdb.Set w0.now (fmtSprint u) tok refreshTTL).2 := by
    rw [← hw1]; rfl
  have hparse := strconvParseInt_fmtSprint u hu
  -- the presented token verifies at every world whose clock reads `t`
  have hver : ∀ w' : World, w'.now = t → s.VerifyRefreshToken tok w' = (fmtSprint u, none) := by
    intro w' hw'
    rw [← htok]
    exact verifyRefreshToken_generated s u w0 w' hclock (by rw [hw']; exact hlive)
  have hstored : storedForSubject s tok w1 = some tok := by
    simp only [storedForSubject, hver w1 hnow1, hparse, hrdb1, hnow1, hlook]
    simp
  have hf1 : w1.rdb.faults = [] := by rw [hrdb1, hfaults, hstore]; rfl
  obtain ⟨hres, hlook2, _, hnow2⟩ := refreshSession_honoured s tok w1 hstored hf1
  rw [hver w1 hnow1, hparse] at hres hlook2
  have hnew : (s.GenerateRefreshToken u w1).1 ≠ tok := by
    rw [← htok, generateRefreshToken_ok, generateRefreshToken_ok, hnow1]
    intro he
    injection he with he1 _
    injection he1 with _ he2
    simp at he2
    omega
  have hres1 : (RefreshSession (wired s) tok w1).1.1 = (s.GenerateRefreshToken u w1).1 := by
    rw [hres]
  have hstored2 : storedForSubject s tok (RefreshSession (wired s) tok w1).2 ≠ some tok := by
    have hn : (RefreshSession (wired s) tok w1).2.now = t := by rw [hnow2, hnow1]
    rw [hnow1] at hlook2
    simp only [storedForSubject, hver _ hn, hparse, hn, hlook2]
    simpa using hnew
  obtain ⟨h1, h2, h3, _, _⟩ :=
    refreshSession_unhonoured s tok (RefreshSession (wired s) tok w1).2 hstored2
  refine ⟨by rw [hres], by rw [hres1]; exact hnew, ?_, ?_, h1, h2, h3⟩
  · rw [hres1, generateRefreshToken_ok]; simp [Token.empty]
  · rw [hres1]; rw [hnow1] at hlook2; exact hlook2

/-- C4, an instance: subject 1, the token exchanged one second after it was stored. -/
theorem C4_rotation_at_a_later_second_witness :
    isInt64 1 ∧ Fixture.start.rdb.faults = [] ∧
      float64Exact (Fixture.start.now + service.refreshTTL) ∧
      Fixture.start.now < 1700000001 ∧ 1700000001 < Fixture.start.now + service.refreshTTL ∧
      (Rotation.first Fixture.tokens 1 Fixture.start 1700000001).1.1 ≠
        Rotation.issued Fixture.tokens 1 Fixture.start :=
  ⟨by decide, by decide, by decide, by decide, by decide,
    (C4_rotation_at_a_later_second Fixture.tokens 1 Fixture.start 1700000001
      (by decide) (by decide) (by decide) (by decide) (by decide)).2.1⟩

/-- C4 as stated fails: exchanged within the clock second in which it was issued and
stored, the refresh token comes back as the very same string, and a second exchange of the
original token succeeds again. -/
theorem C4_counterexample_same_second :
    (Rotation.first Fixture.tokens 1 Fixture.start 1700000000).1.2.2 = none ∧
      (Rotation.first Fixture.tokens 1 Fixture.start 1700000000).1.1 =
        Rotation.issued Fixture.tokens 1 Fixture.start ∧
      (Rotation.second Fixture.tokens 1 Fixture.start 1700000000).1.2.2 = none ∧
      (Rotation.second Fixture.tokens 1 Fixture.start 1700000000).1.1 =
        Rotation.issued Fixture.tokens 1 Fixture.start ∧
      Rotation.issued Fixture.tokens 1 Fixture.start ≠ Token.empty := by
  decide

/-! ## C5, C6: the authentication gate -/

/-- For a request whose path fails the gate's own test for unauthenticated routes, the
wrapped handler is invoked (the gate's response is the handler's, on some request) if and
only if an `access_token` cookie is present and `VerifyToken` accepts its value; otherwise
the response is 401 whatever the wrapped handler is; and when it is invoked, it is on the
request whose context gives `GetUserIDFromContext` exactly the subject `VerifyToken`
returned. -/
theorem authenticate_past_the_test (tokenService : service.JWTTokenService) (env : String)
    (r : Request) (w : World) (hpath : unauthenticatedRoute r.Path = false) :
    ((∃ r', ∀ next : Handler, Authenticate tokenService env next r w = next r' w) ↔
        ∃ c, r.Cookie "access_token" = some c ∧ (tokenService.VerifyToken c.Value w).2 = none) ∧
      ((¬ ∃ c, r.Cookie "access_token" = some c ∧
            (tokenService.VerifyToken c.Value w).2 = none) →
        ∃ body, ∀ next : Handler,
          Authenticate tokenService env next r w =
            ({ status := StatusUnauthorized, body := body }, w)) ∧
      (∀ c, r.Cookie "access_token" = some c → (tokenService.VerifyToken c.Value w).2 = none →
        (∀ next : Handler, Authenticate tokenService env next r w =
          next { r with ctx := { user := some (tokenService.VerifyToken c.Value w).1 } } w) ∧
        GetUserIDFromContext { user := some (tokenService.VerifyToken c.Value w).1 } =
          ((tokenService.VerifyToken c.Value w).1, none)) := by
  have hreject : (¬ ∃ c, r.Cookie "access_token" = some c ∧
        (tokenService.VerifyToken c.Value w).2 = none) →
      ∃ body, ∀ next : Handler,
        Authenticate tokenService env next r w =
          ({ status := StatusUnauthorized, body := body }, w) := by
    intro hno
    cases hc : r.Cookie "access_token" with
    | none =>
      exact ⟨_, fun next => by simp [Authenticate, hpath, hc, Error]; rfl⟩
    | some c =>
      have hv : (tokenService.VerifyToken c.Value w).2 ≠ none := fun hv => hno ⟨c, hc, hv⟩
      have hs : (tokenService.VerifyToken c.Value w).2.isSome = true :=
        Option.isSome_iff_ne_none.mpr hv
      exact ⟨_, fun next => by simp [Authenticate, hpath, hc, hs, Error]; rfl⟩
  have haccept : ∀ c, r.Cookie "access_token" = some c →
      (tokenService.VerifyToken c.Value w).2 = none →
      ∀ next : Handler, Authenticate tokenService env next r w =
        next { r with ctx := { user := some (tokenService.VerifyToken c.Value w).1 } } w := by
    intro c hc hv next
    simp [Authenticate, hpath, hc, hv]
  refine ⟨⟨?_, ?_⟩, hreject, fun c hc hv => ⟨haccept c hc hv, rfl⟩⟩
  · rintro ⟨r', hr'⟩
    by_contra hno
    obtain ⟨body, hb⟩ := hreject hno
    have h1 := hr' (fun _ w => ({ status := 200, body := "" }, w))
    rw [hb] at h1
    simp [StatusUnauthorized] at h1
  · rintro ⟨c, hc, hv⟩
    exact ⟨_, haccept c hc hv⟩

/-- C5, the code: past the gate's own test the gate fails closed (the wrapped handler runs
if and only if the `access_token` cookie is present and verifies, every other request gets
a 401 that does not depend on the handler, and the handler sees the subject `VerifyToken`
returned), as for a profile request without a cookie (401) and with a fresh access token
(subject 1).  But the test is a substring match: `/api/v1/auth/profile/login` starts with
none of the three endpoint paths, the request for it carries no `access_token` cookie, and
the gate hands it to the wrapped handler unchanged, so that the answer of a handler that
writes 200 is a 200 and not a 401. -/
theorem C5_gate_open_off_the_allowlist :
    (∀ (tokenService : service.JWTTokenService) (env : String) (r : Request) (w : World),
        unauthenticatedRoute r.Path = false →
        ((∃ r', ∀ next : Handler, Authenticate tokenService env next r w = next r' w) ↔
          ∃ c, r.Cookie "access_token" = some c ∧
            (tokenService.VerifyToken c.Value w).2 = none) ∧
        ((¬ ∃ c, r.Cookie "access_token" = some c ∧
              (tokenService.VerifyToken c.Value w).2 = none) →
          ∃ body, ∀ next : Handler,
            Authenticate tokenService env next r w =
              ({ status := StatusUnauthorized, body := body }, w)) ∧
        (∀ c, r.Cookie "access_token" = some c →
          (tokenService.VerifyToken c.Value w).2 = none →
          (∀ next : Handler, Authenticate tokenService env next r w =
            next { r with ctx := { user := some (tokenService.VerifyToken c.Value w).1 } } w) ∧
          GetUserIDFromContext { user := some (tokenService.VerifyToken c.Value w).1 } =
            ((tokenService.VerifyToken c.Value w).1, none))) ∧
      (Authenticate Fixture.tokens "dev" Fixture.echo (Fixture.profileRequest [])
        Fixture.start).1.status = StatusUnauthorized ∧
      (Authenticate Fixture.tokens "dev" Fixture.echo
        (Fixture.profileRequest [{ Name := "access_token", Value := Fixture.registered.1.1 }])
        Fixture.start).1 = { status := StatusOK, body := "user 1" } ∧
      stringsHasPrefix Fixture.unlisted.Path "/api/v1/auth/login" = false ∧
      stringsHasPrefix Fixture.unlisted.Path "/api/v1/auth/register" = false ∧
      stringsHasPrefix Fixture.unlisted.Path "/api/v1/auth/refresh" = false ∧
      Fixture.unlisted.Cookie "access_token" = none ∧
      (∀ (next : Handler) (w : World),
        Authenticate Fixture.tokens "dev" next Fixture.unlisted w = next Fixture.unlisted w) ∧
      (Authenticate Fixture.tokens "dev" Fixture.echo Fixture.unlisted Fixture.start).1 =
        { status := StatusOK, body := "no user" } := by
  refine ⟨fun tokenService env r w hpath => authenticate_past_the_test tokenService env r w hpath,
    by decide, by decide, by decide, by decide, by decide, by decide, ?_, by decide⟩
  intro next w
  have h : unauthenticatedRoute Fixture.unlisted.Path = true := by decide
  simp [Authenticate, h]

/-- C6, the code at the failing input: `/api/v1/auth/profile/login` starts with none of the
three endpoint paths, yet the gate's test holds for it and a request for it that carries
no cookie at all is handed to the wrapped handler unchanged. -/
theorem C6_profile_login_passes_unverified :
    stringsHasPrefix "/api/v1/auth/profile/login" "/api/v1/auth/login" = false ∧
      stringsHasPrefix "/api/v1/auth/profile/login" "/api/v1/auth/register" = false ∧
      stringsHasPrefix "/api/v1/auth/profile/login" "/api/v1/auth/refresh" = false ∧
      unauthenticatedRoute "/api/v1/auth/profile/login" = true ∧
      ∀ (next : Handler) (w : World),
        Authenticate Fixture.tokens "dev" next
          { Path := "/api/v1/auth/profile/login", Cookies := [], ctx := { user := none } } w =
        next { Path := "/api/v1/auth/profile/login", Cookies := [], ctx := { user := none } } w := by
  refine ⟨by decide, by decide, by decide, by decide, ?_⟩
  intro next w
  have h : unauthenticatedRoute "/api/v1/auth/profile/login" = true := by decide
  simp [Authenticate, h]

/-! ## C7: signatures and algorithm families -/

/-- C7: `VerifyToken` returns a subject only for a token whose header names an RSA-family
method and whose signature is the one made by that method under the configured public
key over the token's own header and claims.  A signature under any other RSA key, a
header naming `HS256` or `none`, and every token from `GenerateRefreshToken` are rejected
with an error; and `VerifyRefreshToken` rejects every token from `GenerateAccessToken`. -/
theorem C7_verify_needs_configured_rsa_signature (s : JWTTokenService) (w : World) :
    (∀ tok, (s.VerifyToken tok w).2 = none →
        ∃ input alg, tok = Token.jws input (jwt.Signature.rsa alg s.PublicAccessSecret input) ∧
          input.alg = some alg ∧ jwt.GetSigningMethod alg = some jwt.KeyKind.rsa) ∧
      (∀ input alg k, k ≠ s.PublicAccessSecret →
        s.VerifyToken (Token.jws input (jwt.Signature.rsa alg k input)) w =
          (0, some (Err.new "invalid token"))) ∧
      (∀ input sig, input.alg = some "HS256" ∨ input.alg = some "none" →
        s.VerifyToken (Token.jws input sig) w = (0, some (Err.new "invalid token"))) ∧
      (∀ u w0, s.VerifyToken (s.GenerateRefreshToken u w0).1 w =
        (0, some (Err.new "invalid token"))) ∧
      (∀ u w0, (s.GenerateAccessToken u w0).2 = none ∧
        (s.VerifyRefreshToken (s.GenerateAccessToken u w0).1 w).2 ≠ none) := by
  have key : ∀ tok, (s.VerifyToken tok w).2 = none →
      ∃ input alg, tok = Token.jws input (jwt.Signature.rsa alg s.PublicAccessSecret input) ∧
        input.alg = some alg ∧ jwt.GetSigningMethod alg = some jwt.KeyKind.rsa := by
    intro tok h
    cases tok with
    | raw r => simp [VerifyToken, jwt.Parse, jwt.ParseWithClaims] at h
    | jws input sig =>
      cases ha : input.alg with
      | none => simp [VerifyToken, jwt.Parse, jwt.ParseWithClaims, ha] at h
      | some alg =>
        cases hm : jwt.GetSigningMethod alg with
        | none => simp [VerifyToken, jwt.Parse, jwt.ParseWithClaims, ha, hm] at h
        | some kind =>
          cases kind <;>
            try (simp [VerifyToken, jwt.Parse, jwt.ParseWithClaims, ha, hm, jwt.Verify] at h; done)
          by_cases hs : sig = jwt.Signature.rsa alg s.PublicAccessSecret input
          · exact ⟨input, alg, by rw [hs], ha, hm⟩
          · simp [VerifyToken, jwt.Parse, jwt.ParseWithClaims, ha, hm, jwt.Verify, hs] at h
  have reject : ∀ tok, (¬ ∃ input alg,
        tok = Token.jws input (jwt.Signature.rsa alg s.PublicAccessSecret input) ∧
          input.alg = some alg ∧ jwt.GetSigningMethod alg = some jwt.KeyKind.rsa) →
      s.VerifyToken tok w = (0, some (Err.new "invalid token")) := by
    intro tok hno
    cases tok with
    | raw r => simp [VerifyToken, jwt.Parse, jwt.ParseWithClaims]
    | jws input sig =>
      cases ha : input.alg with
      | none => simp [VerifyToken, jwt.Parse, jwt.ParseWithClaims, ha]
      | some alg =>
        cases hm : jwt.GetSigningMethod alg with
        | none => simp [VerifyToken, jwt.Parse, jwt.ParseWithClaims, ha, hm]
        | some kind =>
          cases kind <;>
            try (simp [VerifyToken, jwt.Parse, jwt.ParseWithClaims, ha, hm, jwt.Verify]; done)
          have hs : sig ≠ jwt.Signature.rsa alg s.PublicAccessSecret input := by
            intro hs
            exact hno ⟨input, alg, by rw [hs], ha, hm⟩
          simp [VerifyToken, jwt.Parse, jwt.ParseWithClaims, ha, hm, jwt.Verify, hs]
  refine ⟨key, ?_, ?_, ?_, ?_⟩
  · intro input alg k hk
    apply reject
    rintro ⟨input', alg', he, _, _⟩
    injection he with h1 h2
    injection h2 with _ h3 _
    exact hk h3
  · intro input sig halg
    apply reject
    rintro ⟨input', alg', he, ha, hm⟩
    injection he with h1 _
    subst h1
    rcases halg with h | h <;> rw [h] at ha <;> injection ha with ha <;> subst ha <;>
      simp [jwt.GetSigningMethod] at hm
  · intro u w0
    apply reject
    rw [generateRefreshToken_ok]
    rintro ⟨input', alg', he, _, _⟩
    injection he with _ h2
    injection h2
  · intro u w0
    simp [GenerateAccessToken, VerifyRefreshToken, jwt.SignedString, jwt.GetSigningMethod,
      jwt.Sign, jwt.ParseWithClaims, jwt.Verify, errorsIs, Err.is, jwt.ErrTokenExpired,
      jwt.ErrTokenSignatureInvalid, jwt.ErrInvalidKeyType]

/-! ## C8: registering an email that is already taken -/

/-- C8, the code at the failing input: `alice` is registered, so the lookup by her email
finds a record; registering her again fails with the table's uniqueness violation and
empty tokens, the refresh-token store is untouched, but the last statement the database
received is the `INSERT` of `Create`, carrying the freshly hashed password, and the
sequence of ids has advanced. -/
theorem C8_duplicate_registration_reaches_create :
    (repository.GetByEmail Fixture.alice.Email Fixture.registered.2).1 =
        ({ Fixture.aliceHashed with ID := 1, CreatedAt := 1700000000, UpdatedAt := 1700000000 },
          none) ∧
      (usecase.AuthUseCase.RegisterUser (usecase.wired Fixture.tokens) Fixture.hasher
        Fixture.alice Fixture.registered.2).1 =
        (Token.empty, Token.empty, some (sql.ErrConstraint "users_email_key")) ∧
      (usecase.AuthUseCase.RegisterUser (usecase.wired Fixture.tokens) Fixture.hasher
        Fixture.alice Fixture.registered.2).2.rdb = Fixture.registered.2.rdb ∧
      (usecase.AuthUseCase.RegisterUser (usecase.wired Fixture.tokens) Fixture.hasher
        Fixture.alice Fixture.registered.2).2.db.log.head? =
        some (sql.Stmt.insert Fixture.aliceHashed) ∧
      (usecase.AuthUseCase.RegisterUser (usecase.wired Fixture.tokens) Fixture.hasher
        Fixture.alice Fixture.registered.2).2.db.nextID = Fixture.registered.2.db.nextID + 1 := by
  decide

/-! ## C9: failed logins -/

/-- C9: with the database answering, `LoginUser` fails with an error wrapping
`sql.ErrNoRows` when no row has the given email, and with the error `invalid password` when
a row is found whose stored hash the password does not match.  In both cases the two
strings are empty and the result is the same for every token service (none of its methods
runs): the world changes by the logged lookup only.  `errors.Is(err, sql.ErrNoRows)` tells
the two failures apart. -/
theorem C9_login_failures (ts : interfaces.TokenService) (bc : bcrypt.Impl)
    (email password : String) (w : World) (hdb : w.db.failing = false) :
    ((∀ u ∈ w.db.users, u.Email ≠ email) →
        LoginUser (NewAuthUseCase repository.UserRepo ts) bc email password w =
          ((Token.empty, Token.empty, some (Err.wrap "user not found" sql.ErrNoRows)),
            { w with db := w.db.step (sql.Stmt.selectByEmail email) })) ∧
      (∀ user, w.db.users.find? (fun u => u.Email = email) = some user →
        bc.CompareHashAndPassword user.Password password ≠ none →
        LoginUser (NewAuthUseCase repository.UserRepo ts) bc email password w =
          ((Token.empty, Token.empty, some (Err.new "invalid password")),
            { w with db := w.db.step (sql.Stmt.selectByEmail email) })) ∧
      errorsIs (some (Err.wrap "user not found" sql.ErrNoRows)) sql.ErrNoRows = true ∧
      errorsIs (some (Err.new "invalid password")) sql.ErrNoRows = false := by
  refine ⟨?_, ?_, by decide, by decide⟩
  · intro hnone
    have hfind : w.db.users.find? (fun u => u.Email = email) = none := by
      rw [List.find?_eq_none]
      intro u hu
      simpa using hnone u hu
    simp [LoginUser, NewAuthUseCase, repository.UserRepo, repository.GetByEmail, hdb, hfind,
      errorsIs, Err.is, failed, sql.ErrNoRows]
  · intro user hfind hbad
    obtain ⟨e, he⟩ := Option.ne_none_iff_exists'.mp hbad
    simp [LoginUser, NewAuthUseCase, repository.UserRepo, repository.GetByEmail, hdb, hfind,
      hash.CheckPassword, he, failed]

/-- C9, an instance: after `alice` has registered, a login for an unknown email and a login
for `alice` with a wrong password. -/
theorem C9_login_failures_witness :
    Fixture.registered.2.db.failing = false ∧
      (usecase.AuthUseCase.LoginUser
        (usecase.NewAuthUseCase repository.UserRepo Fixture.tokens.asTokenService)
        Fixture.hasher "bob@example.com" "hunter22" Fixture.registered.2).1 =
        (Token.empty, Token.empty, some (Err.wrap "user not found" sql.ErrNoRows)) ∧
      (usecase.AuthUseCase.LoginUser
        (usecase.NewAuthUseCase repository.UserRepo Fixture.tokens.asTokenService)
        Fixture.hasher "alice@example.com" "letmein" Fixture.registered.2).1 =
        (Token.empty, Token.empty, some (Err.new "invalid password")) :=
  ⟨by decide,
    congrArg Prod.fst ((C9_login_failures Fixture.tokens.asTokenService Fixture.hasher
      "bob@example.com" "hunter22" Fixture.registered.2 (by decide)).1 (by decide)),
    congrArg Prod.fst ((C9_login_failures Fixture.tokens.asTokenService Fixture.hasher
      "alice@example.com" "letmein" Fixture.registered.2 (by decide)).2.1
        { Fixture.aliceHashed with ID := 1, CreatedAt := 1700000000, UpdatedAt := 1700000000 }
        (by decide) (by decide))⟩

/-! ## C10: a refresh token without a stored session -/

/-- C10: for a refresh token that verifies (signature and expiry) and whose subject parses,
if the store answers and holds no live entry for that subject, `RefreshSession` fails with
`redis.Nil`, returns two empty strings and leaves the entries of the store as they were. -/
theorem C10_refresh_without_session (s : JWTTokenService) (refreshToken : Token) (w : World)
    (hverified : (s.VerifyRefreshToken refreshToken w).2 = none)
    (hsubject : (strconvParseInt (s.VerifyRefreshToken refreshToken w).1).2 = none)
    (hstore : w.rdb.failing = false)
    (habsent : w.rdb.lookup w.now
      (fmtSprint (strconvParseInt (s.VerifyRefreshToken refreshToken w).1).1) = none) :
    (RefreshSession (wired s) refreshToken w).1 = (Token.empty, Token.empty, some redis.Nil) ∧
      (RefreshSession (wired s) refreshToken w).2.rdb.entries = w.rdb.entries := by
  simp [RefreshSession, wired, NewAuthUseCase, JWTTokenService.asTokenService, hverified,
    hsubject, JWTTokenService.GetRefreshToken, redis.Client.Get, hstore, habsent, failed,
    redis.Client.step, redis.Nil]

/-- C10, an instance: a token for subject 42, who never logged in. -/
theorem C10_refresh_without_session_witness :
    (Fixture.tokens.VerifyRefreshToken (Fixture.tokens.GenerateRefreshToken 42 Fixture.start).1
        Fixture.registered.2).2 = none ∧
      (usecase.AuthUseCase.RefreshSession (usecase.wired Fixture.tokens)
        (Fixture.tokens.GenerateRefreshToken 42 Fixture.start).1 Fixture.registered.2).1 =
        (Token.empty, Token.empty, some redis.Nil) :=
  ⟨by decide,
    (C10_refresh_without_session Fixture.tokens
      (Fixture.tokens.GenerateRefreshToken 42 Fixture.start).1 Fixture.registered.2
      (by decide) (by decide) (by decide) (by decide)).1⟩

/-! ## More library facts: store, repository and token generation -/

/-- A successful `Del` leaves no entry under its key. -/
theorem redis_Del_ok (c : redis.Client) (key : String) (hf : c.failing = false) :
    (c.Del key).1 = none ∧ (c.Del key).2.entries = c.entries.filter (fun e => e.key ≠ key) ∧
      (c.Del key).2.faults = c.faults.tail := by
  simp [redis.Client.Del, hf, redis.Client.step]

/-- `VerifyToken` reads nothing of the world but the clock. -/
theorem verifyToken_clock_only (s : JWTTokenService) (tok : Token) (w w' : World)
    (h : w'.now = w.now) : s.VerifyToken tok w' = s.VerifyToken tok w := by
  simp [VerifyToken, h]

/-- `LogoutUser` on the wired use case leaves the clock alone. -/
theorem logoutUser_now (s : JWTTokenService) (u : Int) (w : World) :
    (LogoutUser (wired s) u w).2.now = w.now := by
  simp only [LogoutUser, wired, NewAuthUseCase, JWTTokenService.asTokenService,
    RemoveRefreshToken]
  split <;> rfl

/-- `RefreshSession` on the wired use case leaves the clock alone. -/
theorem refreshSession_now (s : JWTTokenService) (tok : Token) (w : World) :
    (RefreshSession (wired s) tok w).2.now = w.now := by
  simp only [RefreshSession, wired, NewAuthUseCase, JWTTokenService.asTokenService,
    GetRefreshToken, StoreRefreshToken]
  split_ifs <;> rfl

/-- What `StoreRefreshToken` does when it reports no error: the token is the one live
value under the subject's key, and `GetRefreshToken` returns it if the store answers. -/
theorem storeRefreshToken_ok (s : JWTTokenService) (id : Int) (tok : Token) (w : World)
    (h : (s.StoreRefreshToken id tok w).1 = none) :
    (s.StoreRefreshToken id tok w).2.rdb.lookup w.now (fmtSprint id) = some tok ∧
      (s.StoreRefreshToken id tok w).2.rdb.entries.filter (fun e => e.key = fmtSprint id) =
        [{ key := fmtSprint id, value := tok, expireAt := w.now + refreshTTL }] ∧
      (s.StoreRefreshToken id tok w).2.now = w.now ∧
      ((s.StoreRefreshToken id tok w).2.rdb.failing = false →
        (s.GetRefreshToken id (s.StoreRefreshToken id tok w).2).1 = (tok, none)) := by
  by_cases hf : w.rdb.failing
  · simp [StoreRefreshToken, redis.Client.Set, hf, redis.ErrUnavailable] at h
  · have hf' : w.rdb.failing = false := by simpa using hf
    have hlook : (s.StoreRefreshToken id tok w).2.rdb.lookup w.now (fmtSprint id) = some tok := by
      simp [StoreRefreshToken, redis.Client.Set, hf', redis.Client.lookup, redis.Client.step,
        refreshTTL]
    refine ⟨hlook, ?_, ?_, ?_⟩
    · simp [StoreRefreshToken, redis.Client.Set, hf', redis.Client.step, List.filter_filter]
    · simp [StoreRefreshToken]
    · intro hf2
      have hn : (s.StoreRefreshToken id tok w).2.now = w.now := by simp [StoreRefreshToken]
      simp only [GetRefreshToken, hn]
      rw [redis_Get_of_lookup _ _ _ _ hf2 hlook]

/-- A `StoreRefreshToken` without error makes its token what the store holds for the
subject. -/
theorem holdsExactly_store (s : JWTTokenService) (id : Int) (tok : Token) (w : World)
    (h : (s.StoreRefreshToken id tok w).1 = none) :
    holdsExactly s (s.StoreRefreshToken id tok w).2 id tok := by
  obtain ⟨h1, h2, h3, h4⟩ := storeRefreshToken_ok s id tok w h
  refine ⟨by rw [h3]; exact h1, by rw [h2]; rfl, h4⟩

/-- A `Create` without error returns the next id of the sequence, adds a row with that id
and the email given, and touches neither the store nor the clock. -/
theorem create_ok (user : entity.User) (w : World) (h : (repository.Create user w).1.2 = none) :
    (repository.Create user w).1.1 = w.db.nextID ∧
      (repository.Create user w).2.rdb = w.rdb ∧ (repository.Create user w).2.now = w.now ∧
      (∃ row ∈ (repository.Create user w).2.db.users,
        row.ID = w.db.nextID ∧ row.Email = user.Email) := by
  unfold repository.Create at h ⊢
  by_cases hf : w.db.failing
  · simp [hf, sql.ErrConnDone] at h
  · cases hv : repository.violation w.db.users user with
    | some e => simp [hf, hv] at h
    | none =>
      simp [hf, hv]
      exact ⟨_, Or.inr rfl, rfl, rfl⟩

/-- `GetByEmail` changes neither the store, nor the clock, nor the rows or the sequence. -/
theorem getByEmail_frame (email : String) (w : World) :
    (repository.GetByEmail email w).2.rdb = w.rdb ∧ (repository.GetByEmail email w).2.now = w.now ∧
      (repository.GetByEmail email w).2.db.nextID = w.db.nextID ∧
      (repository.GetByEmail email w).2.db.users = w.db.users := by
  unfold repository.GetByEmail
  by_cases hf : w.db.failing
  · simp [hf, sql.DB.step]
  · cases hfind : w.db.users.find? (fun u => u.Email = email) <;> simp [hf, hfind, sql.DB.step]

/-- `GetByEmail` without error returns the first row with that email. -/
theorem getByEmail_found (email : String) (w : World)
    (h : (repository.GetByEmail email w).1.2 = none) :
    w.db.users.find? (fun u => u.Email = email) = some (repository.GetByEmail email w).1.1 := by
  unfold repository.GetByEmail at h ⊢
  by_cases hf : w.db.failing
  · simp [hf, sql.ErrConnDone] at h
  · cases hfind : w.db.users.find? (fun u => u.Email = email) with
    | none => simp [hf, hfind, sql.ErrNoRows] at h
    | some u => simp [hf, hfind]

/-- Generating a token reads nothing of the world but the clock. -/
theorem generate_clock_only (s : JWTTokenService) (u : Int) (w w' : World) (h : w'.now = w.now) :
    s.GenerateRefreshToken u w' = s.GenerateRefreshToken u w ∧
      s.GenerateAccessToken u w' = s.GenerateAccessToken u w := by
  simp [GenerateRefreshToken, generateJWT, GenerateAccessToken, h]

/-- The two ways `RefreshSession` ends: without tokens and without touching the entries of
the store, or having stored the new refresh token it returns first, next to the new access
token it returns second. -/
theorem refreshSession_outcome (s : JWTTokenService) (tok : Token) (w : World) :
    ((RefreshSession (wired s) tok w).1.1 = Token.empty ∧
        (RefreshSession (wired s) tok w).1.2.1 = Token.empty ∧
        (RefreshSession (wired s) tok w).2.rdb.entries = w.rdb.entries) ∨
      (∃ w1 : World, w1.now = w.now ∧
        (s.VerifyRefreshToken tok w).2 = none ∧
        (strconvParseInt (s.VerifyRefreshToken tok w).1).2 = none ∧
        (s.StoreRefreshToken (strconvParseInt (s.VerifyRefreshToken tok w).1).1
          (s.GenerateRefreshToken (strconvParseInt (s.VerifyRefreshToken tok w).1).1 w).1 w1).1
            = none ∧
        RefreshSession (wired s) tok w =
          (((s.GenerateRefreshToken (strconvParseInt (s.VerifyRefreshToken tok w).1).1 w).1,
            (s.GenerateAccessToken (strconvParseInt (s.VerifyRefreshToken tok w).1).1 w).1, none),
           (s.StoreRefreshToken (strconvParseInt (s.VerifyRefreshToken tok w).1).1
            (s.GenerateRefreshToken (strconvParseInt (s.VerifyRefreshToken tok w).1).1 w).1
              w1).2)) := by
  by_cases hst : storedForSubject s tok w = some tok
  · -- the presented token is the stored one
    unfold storedForSubject at hst
    by_cases hv : (s.VerifyRefreshToken tok w).2.isSome
    · simp [hv] at hst
    by_cases hp : (strconvParseInt (s.VerifyRefreshToken tok w).1).2.isSome
    · simp [hv, hp] at hst
    simp only [hv, hp, Bool.or_self, Bool.false_eq_true, if_false] at hst
    have hv' : (s.VerifyRefreshToken tok w).2 = none := by simpa using hv
    have hp' : (strconvParseInt (s.VerifyRefreshToken tok w).1).2 = none := by simpa using hp
    set p := (strconvParseInt (s.VerifyRefreshToken tok w).1).1 with hpdef
    have hga : ∀ q ww, (s.GenerateAccessToken q ww).2 = none := by
      intro q ww
      simp [GenerateAccessToken, jwt.SignedString, jwt.GetSigningMethod, jwt.Sign]
    have hgr : ∀ q ww, (s.GenerateRefreshToken q ww).2 = none := by
      intro q ww; rw [generateRefreshToken_ok]
    by_cases hf : w.rdb.failing
    · left
      simp [RefreshSession, wired, NewAuthUseCase, JWTTokenService.asTokenService, hv', hp',
        GetRefreshToken, redis.Client.Get, hf, failed, redis.Client.step]
    · have hf' : w.rdb.failing = false := by simpa using hf
      have hget := redis_Get_of_lookup w.rdb w.now _ tok hf' hst
      set w1 : World := { w with rdb := w.rdb.step } with hw1
      have hgen := generate_clock_only s p w w1 rfl
      by_cases hs : (s.StoreRefreshToken p (s.GenerateRefreshToken p w).1 w1).1.isSome
      · left
        have hent : (s.StoreRefreshToken p (s.GenerateRefreshToken p w).1 w1).2.rdb.entries
            = w.rdb.entries := by
          by_cases hf1 : w1.rdb.failing
          · have hf1' : w.rdb.step.failing = true := hf1
            simp only [StoreRefreshToken, redis.Client.Set, hw1, hf1', if_true]
            simp [redis.Client.step]
          · simp [StoreRefreshToken, redis.Client.Set, hf1, redis.ErrUnavailable] at hs
        simp only [RefreshSession, wired, NewAuthUseCase, JWTTokenService.asTokenService, hv',
          hp', ← hpdef, GetRefreshToken, hget, hga, hgr, ← hw1, hgen.1, hgen.2, hs,
          Option.isSome_none, Bool.false_eq_true, if_false, if_true, ne_eq, not_true_eq_false]
        exact ⟨rfl, rfl, hent⟩
      · right
        have hs' : (s.StoreRefreshToken p (s.GenerateRefreshToken p w).1 w1).1 = none := by
          simpa using hs
        refine ⟨w1, rfl, hv', hp', hs', ?_⟩
        simp only [RefreshSession, wired, NewAuthUseCase, JWTTokenService.asTokenService, hv',
          hp', ← hpdef, GetRefreshToken, hget, hga, hgr, ← hw1, hgen.1, hgen.2, hs',
          Option.isSome_none, Bool.false_eq_true, if_false, ne_eq, not_true_eq_false]
  · left
    obtain ⟨h1, h2, h3, _, _⟩ := refreshSession_unhonoured s tok w hst
    exact ⟨h1, h2, h3⟩

/-- A generated access token verifies to its subject before its expiry, under the matching
key, when `float64` holds subject and expiry exactly. -/
theorem verifyToken_generated (s : JWTTokenService) (userID : Int) (w w' : World)
    (hkey : s.AccessSecret.PublicKey = s.PublicAccessSecret)
    (hid : float64Exact userID) (hclock : float64Exact (w.now + accessTTL))
    (hbefore : w'.now < w.now + accessTTL) :
    s.VerifyToken (s.GenerateAccessToken userID w).1 w' = (userID, none) := by
  have hrange : isInt64 userID := by
    unfold float64Exact at hid
    unfold isInt64; constructor <;> omega
  have h1 := float64OfInt_exact _ hid
  have h2 := float64OfInt_exact _ hclock
  by_cases h0 : w.now + accessTTL = 0 <;>
  simp [GenerateAccessToken, VerifyToken, jwt.SignedString, jwt.GetSigningMethod, jwt.Sign,
    jwt.Parse, jwt.ParseWithClaims, jwt.Verify, hkey, jwt.Validate, jwt.verifyExpiresAt,
    jwt.verifyNotBefore, jwt.parseNumericDate, jwt.MapClaims.get, jwt.decodeClaims,
    jwt.decodeValue, h1, h2, int64OfFloat, hrange, List.lookup, h0, hbefore,
    float64OfInt_zero]

/-- `StoreRefreshToken` reports no error only if the store took the command. -/
theorem storeRefreshToken_up (s : JWTTokenService) (id : Int) (tok : Token) (w : World)
    (h : (s.StoreRefreshToken id tok w).1 = none) : w.rdb.failing = false := by
  by_cases hf : w.rdb.failing
  · simp [StoreRefreshToken, redis.Client.Set, hf, redis.ErrUnavailable] at h
  · simpa using hf

/-- `RegisterUser` returns no error only if the store took its command. -/
theorem registerUser_ok_store (s : JWTTokenService) (bc : bcrypt.Impl) (user : entity.User)
    (w : World) (hok : (RegisterUser (wired s) bc user w).1.2.2 = none) :
    w.rdb.failing = false := by
  obtain ⟨g1, _, _, _⟩ := getByEmail_frame user.Email w
  simp only [RegisterUser, wired, NewAuthUseCase, JWTTokenService.asTokenService,
    repository.UserRepo] at hok
  set g := repository.GetByEmail user.Email w with hg
  set hp := hash.HashPassword bc user.Password g.2 with hhp
  set c := repository.Create { user with Password := hp.1 } g.2 with hc
  split_ifs at hok with h1 h2 h3 h4 h5 h6
  all_goals try (exfalso; simp [failed] at hok; simp_all; done)
  have hcok : c.1.2 = none := by simpa using h3
  obtain ⟨_, c2, _, _⟩ := create_ok _ _ hcok
  have hst : (s.StoreRefreshToken c.1.1 (s.GenerateRefreshToken c.1.1 c.2).1 c.2).1 = none := by
    simpa using h5
  have := storeRefreshToken_up s _ _ c.2 hst
  rw [c2, g1] at this
  exact this

/-- `LoginUser` returns no error only if the store took its command. -/
theorem loginUser_ok_store (s : JWTTokenService) (bc : bcrypt.Impl) (email password : String)
    (w : World) (hok : (LoginUser (wired s) bc email password w).1.2.2 = none) :
    w.rdb.failing = false := by
  obtain ⟨g1, _, _, _⟩ := getByEmail_frame email w
  simp only [LoginUser, wired, NewAuthUseCase, JWTTokenService.asTokenService,
    repository.UserRepo] at hok
  set g := repository.GetByEmail email w with hg
  split_ifs at hok with h1 h2 h3 h4 h5 h6
  all_goals try (exfalso; simp [failed] at hok; simp_all; done)
  have hst : (s.StoreRefreshToken g.1.1.ID (s.GenerateRefreshToken g.1.1.ID g.2).1 g.2).1
      = none := by simpa using h5
  have := storeRefreshToken_up s _ _ g.2 hst
  rw [g1] at this
  exact this

/-- `RefreshSession` returns no error only if the store answered its read. -/
theorem refreshSession_ok_store (s : JWTTokenService) (tok : Token) (w : World)
    (hok : (RefreshSession (wired s) tok w).1.2.2 = none) : w.rdb.failing = false := by
  by_cases hf : w.rdb.failing
  · exfalso
    simp only [RefreshSession, wired, NewAuthUseCase, JWTTokenService.asTokenService,
      GetRefreshToken, redis.Client.Get, hf, if_true] at hok
    split_ifs at hok with h1 h2 h3
    all_goals simp_all [failed, redis.ErrUnavailable]
  · simpa using hf

/-- When the read of `RefreshSession` is answered with the presented token and the write
that follows fails, `RefreshSession` returns the error of the write. -/
theorem refreshSession_write_fails (s : JWTTokenService) (tok : Token) (w : World)
    (hst : storedForSubject s tok w = some tok) (hf : w.rdb.failing = false)
    (hf2 : w.rdb.step.failing = true) :
    (RefreshSession (wired s) tok w).1.2.2 = some redis.ErrUnavailable := by
  unfold storedForSubject at hst
  by_cases hv : (s.VerifyRefreshToken tok w).2.isSome
  · simp [hv] at hst
  by_cases hp : (strconvParseInt (s.VerifyRefreshToken tok w).1).2.isSome
  · simp [hv, hp] at hst
  simp only [hv, hp, Bool.or_self, Bool.false_eq_true, if_false] at hst
  have hget := redis_Get_of_lookup w.rdb w.now _ tok hf hst
  have hga : ∀ q ww, (s.GenerateAccessToken q ww).2 = none := by
    intro q ww
    simp [GenerateAccessToken, jwt.SignedString, jwt.GetSigningMethod, jwt.Sign]
  have hgr : ∀ q ww, (s.GenerateRefreshToken q ww).2 = none := by
    intro q ww; rw [generateRefreshToken_ok]
  simp only [RefreshSession, wired, NewAuthUseCase, JWTTokenService.asTokenService, hv, hp,
    GetRefreshToken, hget, hga, hgr, StoreRefreshToken, redis.Client.Set, hf2,
    Option.isSome_none, Option.isSome_some, Bool.false_eq_true, if_false, if_true, ne_eq,
    not_true_eq_false, failed]

/-! ## C11: logging out twice -/

/-- C11: with a working store, `LogoutUser` returns no error whether or not the subject has
an entry, no entry is left under the subject's key (so nothing is live for it at any
instant), and a second `LogoutUser` returns no error and leaves the entries as they are. -/
theorem C11_logout_idempotent (s : JWTTokenService) (userID : Int) (w : World)
    (hstore : w.rdb.faults = []) :
    (LogoutUser (wired s) userID w).1 = none ∧
      (∀ e ∈ (LogoutUser (wired s) userID w).2.rdb.entries, e.key ≠ fmtSprint userID) ∧
      (∀ t, (LogoutUser (wired s) userID w).2.rdb.lookup t (fmtSprint userID) = none) ∧
      (LogoutUser (wired s) userID (LogoutUser (wired s) userID w).2).1 = none ∧
      (LogoutUser (wired s) userID (LogoutUser (wired s) userID w).2).2.rdb.entries =
        (LogoutUser (wired s) userID w).2.rdb.entries := by
  have hf : w.rdb.failing = false := by simp [redis.Client.failing, hstore]
  obtain ⟨h1, h2, h3⟩ := redis_Del_ok w.rdb (fmtSprint userID) hf
  have hw1 : LogoutUser (wired s) userID w =
      (none, { w with rdb := (w.rdb.Del (fmtSprint userID)).2 }) := by
    simp [LogoutUser, wired, NewAuthUseCase, JWTTokenService.asTokenService,
      RemoveRefreshToken, h1]
  have hf1 : (w.rdb.Del (fmtSprint userID)).2.failing = false := by
    simp [redis.Client.failing, h3, hstore]
  obtain ⟨k1, k2, _⟩ := redis_Del_ok (w.rdb.Del (fmtSprint userID)).2 (fmtSprint userID) hf1
  have hw2 : LogoutUser (wired s) userID { w with rdb := (w.rdb.Del (fmtSprint userID)).2 } =
      (none, { w with rdb := ((w.rdb.Del (fmtSprint userID)).2.Del (fmtSprint userID)).2 }) := by
    simp [LogoutUser, wired, NewAuthUseCase, JWTTokenService.asTokenService,
      RemoveRefreshToken, k1]
  rw [hw1]
  simp only [hw2]
  refine ⟨trivial, ?_, ?_, trivial, ?_⟩
  · intro e he
    simp only [h2, List.mem_filter] at he
    simpa using he.2
  · intro t
    simp [redis.Client.lookup, h2, List.find?_eq_none]
    intro e _ hk hk'
    exact absurd hk' hk
  · simp [k2, h2, List.filter_filter]

/-- C11, an instance: `alice` logs out twice after her second login. -/
theorem C11_logout_idempotent_witness :
    Fixture.secondLogin.2.rdb.faults = [] ∧
      Fixture.secondLogin.2.rdb.lookup 1700000010 (fmtSprint 1) ≠ none ∧
      (usecase.AuthUseCase.LogoutUser (usecase.wired Fixture.tokens) 1
        Fixture.secondLogin.2).1 = none :=
  ⟨by decide, by decide,
    (C11_logout_idempotent Fixture.tokens 1 Fixture.secondLogin.2 (by decide)).1⟩

/-! ## C12: access tokens and the store -/

/-- C12: `VerifyToken` gives the same result in any two worlds whose clocks agree, whatever
their stores hold; in particular its result for a token is the same after a `LogoutUser` or
a `RefreshSession` as before, and at every later instant `t` it is what it would have been
at `t` without them. -/
theorem C12_verify_independent_of_store (s : JWTTokenService) (tok : Token) (w : World) :
    (∀ (rdb : redis.Client) (db : sql.DB) (salt : Nat) (files : List (String × os.Bytes)),
        s.VerifyToken tok { now := w.now, rdb := rdb, db := db, salt := salt, files := files } =
          s.VerifyToken tok w) ∧
      (∀ u : Int, s.VerifyToken tok (LogoutUser (wired s) u w).2 = s.VerifyToken tok w) ∧
      (∀ presented : Token,
        s.VerifyToken tok (RefreshSession (wired s) presented w).2 = s.VerifyToken tok w) ∧
      (∀ (u t : Int), s.VerifyToken tok { (LogoutUser (wired s) u w).2 with now := t } =
          s.VerifyToken tok { w with now := t }) ∧
      (∀ (presented : Token) (t : Int),
        s.VerifyToken tok { (RefreshSession (wired s) presented w).2 with now := t } =
          s.VerifyToken tok { w with now := t }) :=
  ⟨fun _ _ _ _ => verifyToken_clock_only s tok _ _ rfl,
    fun u => verifyToken_clock_only s tok _ _ (logoutUser_now s u w),
    fun p => verifyToken_clock_only s tok _ _ (refreshSession_now s p w),
    fun _ _ => verifyToken_clock_only s tok _ _ rfl,
    fun _ _ => verifyToken_clock_only s tok _ _ rfl⟩

/-! ## C13: the live refresh token -/

/-- C13: whenever `RegisterUser` or `LoginUser` returns no error, the refresh token it
returns is what the store holds for the subject (the id of the row created, respectively
the id of the row found by email): it is the live value under the subject's key, the only
entry under that key, whatever was stored there before, and `GetRefreshToken` returns it
when the store answers. -/
theorem C13_returned_refresh_token_is_stored (s : JWTTokenService) (bc : bcrypt.Impl) (w : World) :
    (∀ user, (RegisterUser (wired s) bc user w).1.2.2 = none →
      holdsExactly s (RegisterUser (wired s) bc user w).2 w.db.nextID
        (RegisterUser (wired s) bc user w).1.2.1 ∧
      ∃ row ∈ (RegisterUser (wired s) bc user w).2.db.users,
        row.ID = w.db.nextID ∧ row.Email = user.Email) ∧
    (∀ email password, (LoginUser (wired s) bc email password w).1.2.2 = none →
      ∃ user, w.db.users.find? (fun u => u.Email = email) = some user ∧
        holdsExactly s (LoginUser (wired s) bc email password w).2 user.ID
          (LoginUser (wired s) bc email password w).1.2.1) := by
  constructor
  · intro user hok
    obtain ⟨g1, g2, g3, _⟩ := getByEmail_frame user.Email w
    simp only [RegisterUser, wired, NewAuthUseCase, JWTTokenService.asTokenService,
      repository.UserRepo] at hok ⊢
    set g := repository.GetByEmail user.Email w with hg
    set hp := hash.HashPassword bc user.Password g.2 with hhp
    set c := repository.Create { user with Password := hp.1 } g.2 with hc
    split_ifs at hok ⊢ with h1 h2 h3 h4 h5 h6
    all_goals try (exfalso; simp [failed] at hok; simp_all; done)
    have hcok : c.1.2 = none := by simpa using h3
    obtain ⟨c1, c2, c3, row, hrow, hid, hemail⟩ := create_ok _ _ hcok
    have hst : (s.StoreRefreshToken c.1.1 (s.GenerateRefreshToken c.1.1 c.2).1 c.2).1 = none := by
      simpa using h5
    have hh := holdsExactly_store s c.1.1 _ c.2 hst
    rw [c1, g3] at hh
    refine ⟨?_, row, ?_, by rw [hid, g3], hemail⟩
    · rw [c1, g3]; exact hh
    · simpa [StoreRefreshToken] using hrow
  · intro email password hok
    obtain ⟨g1, g2, g3, g4⟩ := getByEmail_frame email w
    have hfound := getByEmail_found email w
    simp only [LoginUser, wired, NewAuthUseCase, JWTTokenService.asTokenService,
      repository.UserRepo] at hok ⊢
    set g := repository.GetByEmail email w with hg
    split_ifs at hok ⊢ with h1 h2 h3 h4 h5 h6
    all_goals try (exfalso; simp [failed] at hok; simp_all; done)
    have hgok : g.1.2 = none := by simpa using h1
    have hst : (s.StoreRefreshToken g.1.1.ID (s.GenerateRefreshToken g.1.1.ID g.2).1 g.2).1
        = none := by simpa using h5
    exact ⟨g.1.1, hfound hgok, holdsExactly_store s _ _ g.2 hst⟩

/-! ## C14, C15: what `RefreshSession` returns -/

/-- C14, the code: an error from `RefreshSession` always leaves the entries of the store as
they were, and a result that carries tokens always comes with a nil error, a new access
token, and the returned refresh token as what the store holds for the subject.  But at the
failing input (the first login's token after a second login) the error is nil although no
token was issued, and the store holds the second login's token, not what is returned. -/
theorem C14_nil_error_without_rotation :
    (∀ (s : JWTTokenService) (tok : Token) (w : World),
        (RefreshSession (wired s) tok w).1.2.2 ≠ none →
        (RefreshSession (wired s) tok w).2.rdb.entries = w.rdb.entries) ∧
      (∀ (s : JWTTokenService) (tok : Token) (w : World),
        (RefreshSession (wired s) tok w).1.1 ≠ Token.empty →
        (RefreshSession (wired s) tok w).1.2.2 = none ∧
        (RefreshSession (wired s) tok w).1.2.1 =
          (s.GenerateAccessToken (strconvParseInt (s.VerifyRefreshToken tok w).1).1 w).1 ∧
        holdsExactly s (RefreshSession (wired s) tok w).2
          (strconvParseInt (s.VerifyRefreshToken tok w).1).1
          (RefreshSession (wired s) tok w).1.1) ∧
      (RefreshSession (wired Fixture.tokens) Fixture.firstLogin.1.2.1
          { Fixture.secondLogin.2 with now := 1700000011 }).1 =
        (Token.empty, Token.empty, none) ∧
      (RefreshSession (wired Fixture.tokens) Fixture.firstLogin.1.2.1
          { Fixture.secondLogin.2 with now := 1700000011 }).2.rdb.lookup 1700000011
            (fmtSprint 1) = some Fixture.secondLogin.1.2.1 ∧
      Fixture.secondLogin.1.2.1 ≠ Token.empty := by
  refine ⟨?_, ?_, by decide, by decide, by decide⟩
  · intro s tok w herr
    rcases refreshSession_outcome s tok w with h | ⟨w1, _, _, _, _, h⟩
    · exact h.2.2
    · rw [h] at herr; exact absurd rfl herr
  · intro s tok w htok
    rcases refreshSession_outcome s tok w with h | ⟨w1, hnow, _, _, hs, h⟩
    · exact absurd h.1 htok
    · have hh := holdsExactly_store s _ _ w1 hs
      rw [h]
      exact ⟨rfl, rfl, hh⟩

/-- C15 (amended): whenever `RefreshSession` returns tokens, the error is nil, the first
returned string is the new refresh token, which is what the store then holds for the
subject, and the second is the new access token, which `VerifyToken` accepts for the
subject (matching key pair, subject and expiry exact in `float64`); the refresh handler
reads them in that order and sets the `access_token` cookie to the second and the
`refresh_token` cookie to the first, with status 200. -/
theorem C15_refresh_returns_refresh_then_access (s : JWTTokenService) (w : World)
    (env : String) (bc : bcrypt.Impl) (codec : handler.Codec) (r : http.Request) (c : http.Cookie)
    (hkey : s.AccessSecret.PublicKey = s.PublicAccessSecret)
    (hcookie : r.Cookie "refresh_token" = some c)
    (htokens : (RefreshSession (wired s) c.Value w).1.1 ≠ Token.empty)
    (hsubject : float64Exact (strconvParseInt (s.VerifyRefreshToken c.Value w).1).1)
    (hclock : float64Exact (w.now + accessTTL)) :
    (RefreshSession (wired s) c.Value w).1.2.2 = none ∧
      holdsExactly s (RefreshSession (wired s) c.Value w).2
        (strconvParseInt (s.VerifyRefreshToken c.Value w).1).1
        (RefreshSession (wired s) c.Value w).1.1 ∧
      s.VerifyToken (RefreshSession (wired s) c.Value w).1.2.1
          (RefreshSession (wired s) c.Value w).2 =
        ((strconvParseInt (s.VerifyRefreshToken c.Value w).1).1, none) ∧
      ((handler.NewAuthHandler (wired s) env bc codec).refresh r w).1.status = http.StatusOK ∧
      ((handler.NewAuthHandler (wired s) env bc codec).refresh r w).1.cookies.map
          (fun k => (k.Name, k.Value)) =
        [("access_token", (RefreshSession (wired s) c.Value w).1.2.1),
         ("refresh_token", (RefreshSession (wired s) c.Value w).1.1)] := by
  rcases refreshSession_outcome s c.Value w with h | ⟨w1, hnow, _, _, hs, h⟩
  · exact absurd h.1 htokens
  · have hh := holdsExactly_store s _ _ w1 hs
    have hnow2 : (s.StoreRefreshToken (strconvParseInt (s.VerifyRefreshToken c.Value w).1).1
        (s.GenerateRefreshToken (strconvParseInt (s.VerifyRefreshToken c.Value w).1).1 w).1
          w1).2.now = w.now := by
      simp [StoreRefreshToken, hnow]
    have hver := verifyToken_generated s _ w _ hkey hsubject hclock
      (show (s.StoreRefreshToken (strconvParseInt (s.VerifyRefreshToken c.Value w).1).1
        (s.GenerateRefreshToken (strconvParseInt (s.VerifyRefreshToken c.Value w).1).1 w).1
          w1).2.now < w.now + accessTTL by rw [hnow2]; simp [accessTTL])
    refine ⟨by rw [h], by rw [h]; exact hh, by rw [h]; exact hver, ?_, ?_⟩
    · simp [handler.AuthHandler.refresh, handler.NewAuthHandler, hcookie, h, response.WriteJson, response.SetTokenCookies,
        http.SetCookie, http.Response.WriteHeader, http.Response.Write, http.Response.fresh]
    · simp [handler.AuthHandler.refresh, handler.NewAuthHandler, hcookie, h, response.WriteJson, response.SetTokenCookies,
        http.SetCookie, http.Response.WriteHeader, http.Response.Write, http.Response.fresh]

/-- C15, an instance: subject 1 exchanging, one second later, the token stored for it. -/
theorem C15_refresh_returns_refresh_then_access_witness :
    Fixture.tokens.AccessSecret.PublicKey = Fixture.tokens.PublicAccessSecret ∧
      (usecase.AuthUseCase.RefreshSession (usecase.wired Fixture.tokens)
        (Rotation.issued Fixture.tokens 1 Fixture.start)
        (Rotation.stored Fixture.tokens 1 Fixture.start 1700000001)).1.1 ≠ Token.empty ∧
      (handler.AuthHandler.refresh
        (handler.NewAuthHandler (usecase.wired Fixture.tokens) "dev" Fixture.hasher Fixture.codec)
        (Fixture.refreshRequest (Rotation.issued Fixture.tokens 1 Fixture.start))
        (Rotation.stored Fixture.tokens 1 Fixture.start 1700000001)).1.status = http.StatusOK :=
  ⟨by decide, by decide,
    (C15_refresh_returns_refresh_then_access Fixture.tokens
      (Rotation.stored Fixture.tokens 1 Fixture.start 1700000001) "dev" Fixture.hasher
      Fixture.codec (Fixture.refreshRequest (Rotation.issued Fixture.tokens 1 Fixture.start))
      { Name := "refresh_token", Value := Rotation.issued Fixture.tokens 1 Fixture.start }
      (by decide) (by decide) (by decide) (by decide) (by decide)).2.2.2.1⟩

/-- C15 as stated fails: in a successful exchange the first returned string is rejected by
`VerifyToken` and is the value the store holds for the subject, while it is the second
returned string that `VerifyToken` accepts for the subject. -/
theorem C15_counterexample_first_result_is_refresh_token :
    (Rotation.first Fixture.tokens 1 Fixture.start 1700000001).1.2.2 = none ∧
      Fixture.tokens.VerifyToken (Rotation.first Fixture.tokens 1 Fixture.start 1700000001).1.1
        (Rotation.first Fixture.tokens 1 Fixture.start 1700000001).2 =
          (0, some (Err.new "invalid token")) ∧
      (Rotation.first Fixture.tokens 1 Fixture.start 1700000001).2.rdb.lookup 1700000001
        (fmtSprint 1) = some (Rotation.first Fixture.tokens 1 Fixture.start 1700000001).1.1 ∧
      Fixture.tokens.VerifyToken
        (Rotation.first Fixture.tokens 1 Fixture.start 1700000001).1.2.1
        (Rotation.first Fixture.tokens 1 Fixture.start 1700000001).2 = (1, none) := by
  decide

/-! ## C16: an expired refresh token -/

/-- C16: a refresh token issued by `GenerateRefreshToken` (its expiry exact in `float64`
and not 0, which the library reads as no expiry) and presented when that expiry is
one second or more in the past: `VerifyRefreshToken` returns the subject together with an
error that is `jwt.ErrTokenExpired`, and `RefreshSession` returns that error and two empty
strings and leaves the world, the store and its pending commands included, untouched. -/
theorem C16_expired_refresh_token (s : JWTTokenService) (u : Int) (w0 w : World)
    (hclock : float64Exact (w0.now + refreshTTL)) (hexp : w0.now + refreshTTL ≠ 0)
    (hpast : w0.now + refreshTTL + 1 ≤ w.now) :
    s.VerifyRefreshToken (s.GenerateRefreshToken u w0).1 w =
        (fmtSprint u, some (Err.join jwt.ErrTokenInvalidClaims jwt.ErrTokenExpired)) ∧
      errorsIs (s.VerifyRefreshToken (s.GenerateRefreshToken u w0).1 w).2 jwt.ErrTokenExpired
        = true ∧
      RefreshSession (wired s) (s.GenerateRefreshToken u w0).1 w =
        ((Token.empty, Token.empty,
          some (Err.join jwt.ErrTokenInvalidClaims jwt.ErrTokenExpired)), w) := by
  have h2 := float64OfInt_exact _ hclock
  have hnot : ¬ w.now < w0.now + refreshTTL := by omega
  have hv : s.VerifyRefreshToken (s.GenerateRefreshToken u w0).1 w =
      (fmtSprint u, some (Err.join jwt.ErrTokenInvalidClaims jwt.ErrTokenExpired)) := by
    rw [generateRefreshToken_ok]
    simp [VerifyRefreshToken, jwt.GetSigningMethod, jwt.ParseWithClaims, jwt.Verify,
      jwt.Validate, jwt.verifyExpiresAt, jwt.verifyNotBefore, jwt.parseNumericDate,
      jwt.MapClaims.get, jwt.decodeClaims, jwt.decodeValue, h2, List.lookup, hexp, hnot,
      errorsIs, Err.is, jwt.ErrTokenExpired, jwt.ErrTokenInvalidClaims]
  refine ⟨hv, ?_, ?_⟩
  · rw [hv]; simp [errorsIs, Err.is, jwt.ErrTokenExpired, jwt.ErrTokenInvalidClaims]
  · simp [RefreshSession, wired, NewAuthUseCase, JWTTokenService.asTokenService, hv, failed]

/-- C16, an instance: a token issued for subject 1, presented one second after its seven
days have run out. -/
theorem C16_expired_refresh_token_witness :
    float64Exact (Fixture.start.now + service.refreshTTL) ∧
      Fixture.start.now + service.refreshTTL ≠ 0 ∧
      Fixture.start.now + service.refreshTTL + 1 ≤ 1700604801 ∧
      errorsIs (Fixture.tokens.VerifyRefreshToken
        (Fixture.tokens.GenerateRefreshToken 1 Fixture.start).1
        { Fixture.firstLogin.2 with now := 1700604801 }).2 jwt.ErrTokenExpired = true :=
  ⟨by decide, by decide, by decide,
    (C16_expired_refresh_token Fixture.tokens 1 Fixture.start
      { Fixture.firstLogin.2 with now := 1700604801 } (by decide) (by decide) (by decide)).2.1⟩

/-! ## C17: the failures of `VerifyToken` -/

/-- C17 (amended): `VerifyToken` has two failures.  Every token the parser does not accept,
whether malformed, badly signed, expired or not yet valid, gets the one error
`invalid token`; a token the parser accepts gets `userId not found` when its `userId` claim
is missing or not a number, and otherwise its subject with no error.  The two errors
differ. -/
theorem C17_verify_token_failures (s : JWTTokenService) (tok : Token) (w : World) :
    ((jwt.Parse tok (jwt.VerifyKey.rsaPublic s.PublicAccessSecret) w.now).err ≠ none →
        s.VerifyToken tok w = (0, some (Err.new "invalid token"))) ∧
      ((jwt.Parse tok (jwt.VerifyKey.rsaPublic s.PublicAccessSecret) w.now).err = none →
        (∀ f, jwt.MapClaims.get
            (jwt.Parse tok (jwt.VerifyKey.rsaPublic s.PublicAccessSecret) w.now).Claims "userId"
              = some (jwt.JSON.num f) →
          s.VerifyToken tok w = (int64OfFloat f, none)) ∧
        ((∀ f, jwt.MapClaims.get
            (jwt.Parse tok (jwt.VerifyKey.rsaPublic s.PublicAccessSecret) w.now).Claims "userId"
              ≠ some (jwt.JSON.num f)) →
          s.VerifyToken tok w = (0, some (Err.new "userId not found")))) ∧
      Err.new "invalid token" ≠ Err.new "userId not found" := by
  have hvalid : ∀ p : jwt.Parsed,
      p = jwt.Parse tok (jwt.VerifyKey.rsaPublic s.PublicAccessSecret) w.now →
      p.err = none → p.Valid = true := by
    intro p hp herr
    subst hp
    cases tok with
    | raw r => simp [jwt.Parse, jwt.ParseWithClaims] at herr
    | jws input sig =>
      cases ha : input.alg with
      | none => simp [jwt.Parse, jwt.ParseWithClaims, ha] at herr
      | some alg =>
        cases hm : jwt.GetSigningMethod alg with
        | none => simp [jwt.Parse, jwt.ParseWithClaims, ha, hm] at herr
        | some kind =>
          cases hver : jwt.Verify kind alg input sig
              (jwt.VerifyKey.rsaPublic s.PublicAccessSecret) with
          | some e => simp [jwt.Parse, jwt.ParseWithClaims, ha, hm, hver] at herr
          | none =>
            cases hval : jwt.Validate (jwt.decodeClaims input.claims) w.now with
            | some e => simp [jwt.Parse, jwt.ParseWithClaims, ha, hm, hver, hval] at herr
            | none => simp [jwt.Parse, jwt.ParseWithClaims, ha, hm, hver, hval]
  refine ⟨?_, ?_, by decide⟩
  · intro herr
    obtain ⟨e, he⟩ := Option.ne_none_iff_exists'.mp herr
    simp [VerifyToken, he]
  · intro herr
    have hval := hvalid _ rfl herr
    refine ⟨?_, ?_⟩
    · intro f hf
      simp [VerifyToken, herr, hval, hf]
    · intro hno
      cases hget : jwt.MapClaims.get
          (jwt.Parse tok (jwt.VerifyKey.rsaPublic s.PublicAccessSecret) w.now).Claims
          "userId" with
      | none => simp [VerifyToken, herr, hval, hget]
      | some v =>
        cases v with
        | num f => exact absurd hget (hno f)
        | str t => simp [VerifyToken, herr, hval, hget]
        | other t => simp [VerifyToken, herr, hval, hget]

/-- C17 as stated fails: an access token that verifies when fresh gets, one second after
its expiry, the very error that a token signed with another key gets. -/
theorem C17_counterexample_expired_like_forged :
    Fixture.tokens.VerifyToken (Fixture.tokens.GenerateAccessToken 1 Fixture.start).1
        Fixture.start = (1, none) ∧
      Fixture.tokens.VerifyToken (Fixture.tokens.GenerateAccessToken 1 Fixture.start).1
        { Fixture.start with now := 1700000901 } = (0, some (Err.new "invalid token")) ∧
      Fixture.tokens.VerifyToken (Fixture.intruder.GenerateAccessToken 1 Fixture.start).1
        Fixture.start = (0, some (Err.new "invalid token")) := by
  decide

/-! ## C18: validity windows -/

/-- C18: for every issuance instant, the `exp` claim `GenerateAccessToken` writes is that
instant plus 900, the one `GenerateRefreshToken` writes is that instant plus 604800, and
`StoreRefreshToken` is the `Set` of the token under the subject's key with a time to live
of 604800 seconds: when the store answers, the entry is live exactly until then. -/
theorem C18_validity_windows (s : JWTTokenService) (u : Int) (w : World) :
    Token.claim (s.GenerateAccessToken u w).1 "exp" = some (jwt.JSON.num (w.now + 900)) ∧
      Token.claim (s.GenerateRefreshToken u w).1 "exp" =
        some (jwt.JSON.num (w.now + 604800)) ∧
      (∀ tok, ((s.StoreRefreshToken u tok w).1, (s.StoreRefreshToken u tok w).2.rdb) =
        w.rdb.Set w.now (fmtSprint u) tok 604800) ∧
      (∀ tok t, w.rdb.failing = false →
        ((s.StoreRefreshToken u tok w).2.rdb.lookup t (fmtSprint u) = some tok ↔
          t < w.now + 604800)) := by
  refine ⟨?_, ?_, ?_, ?_⟩
  · simp [GenerateAccessToken, jwt.SignedString, jwt.GetSigningMethod, jwt.Sign, Token.claim,
      List.lookup, accessTTL]
  · rw [generateRefreshToken_ok]
    simp [Token.claim, List.lookup, refreshTTL]
  · intro tok
    have httl : refreshTTL = 604800 := by decide
    simp [StoreRefreshToken, httl]
  · intro tok t hf
    have httl : refreshTTL = 604800 := by decide
    simp only [StoreRefreshToken, redis.Client.Set, hf, redis.Client.lookup, redis.Client.step,
      httl]
    by_cases ht : t < w.now + 604800
    · simp [List.find?, ht]
    · have hnone : List.find? (fun e => decide (e.key = fmtSprint u) && decide (t < e.expireAt))
          (List.filter (fun e => decide (e.key ≠ fmtSprint u)) w.rdb.entries) = none := by
        rw [List.find?_eq_none]
        intro e he
        simp only [List.mem_filter] at he
        simpa using fun hk => absurd hk (by simpa using he.2)
      simp only [Bool.false_eq_true, if_false, List.find?_cons, ht, decide_False, Bool.and_false,
        hnone]
      simp

/-! ## C19: the public key handed out -/

/-- C19, the code: `GetPublicKey` is the same for every token service, whatever it was
constructed from.  A service constructed from `keys/public.pem` answers, once that file
has been replaced, with the new contents, while it goes on verifying with the key it
loaded; and a service constructed from `secrets/public.pem` answers with the contents of
`keys/public.pem`, another key. -/
theorem C19_public_key_read_from_fixed_path :
    (∀ (s s' : JWTTokenService) (w : World),
        GetPublicKey (wired s) w = GetPublicKey (wired s') w) ∧
      NewJWTTokenService "keys/public.pem" "keys/private.pem" "refresh-secret" Fixture.disk =
        Except.ok Fixture.tokens ∧
      GetPublicKey (wired Fixture.tokens) Fixture.disk =
        (os.Bytes.publicKeyPEM Fixture.tokens.PublicAccessSecret, none) ∧
      GetPublicKey (wired Fixture.tokens) Fixture.diskReplaced =
        (os.Bytes.publicKeyPEM ⟨9⟩, none) ∧
      Fixture.tokens.VerifyToken (Fixture.tokens.GenerateAccessToken 1 Fixture.diskReplaced).1
        Fixture.diskReplaced = (1, none) ∧
      NewJWTTokenService "secrets/public.pem" "secrets/private.pem" "refresh-secret"
        Fixture.diskElsewhere = Except.ok Fixture.tokens ∧
      GetPublicKey (wired Fixture.tokens) Fixture.diskElsewhere =
        (os.Bytes.publicKeyPEM ⟨9⟩, none) ∧
      os.Bytes.publicKeyPEM ⟨9⟩ ≠ os.Bytes.publicKeyPEM Fixture.tokens.PublicAccessSecret := by
  refine ⟨?_, by rfl, by decide, by decide, by decide, by rfl, by decide, by decide⟩
  intro s s' w
  simp [GetPublicKey, wired, NewAuthUseCase, JWTTokenService.asTokenService, GetPublicKeyPEM]

/-! ## C20: handlers and a failing store -/

/-- C20, the code: when the store fails the command a request reaches it with, the
register, login and refresh handlers do not answer 200 (nor does the refresh handler when
its read succeeds and its write fails); but the logout handler answers 200 whenever the
context carries a subject, and at the failing input, with the store down, `LogoutUser`
returns an error, the handler answers 200, and the refresh token is still stored. -/
theorem C20_logout_ignores_store_failure :
    (∀ (s : JWTTokenService) (env : String) (bc : bcrypt.Impl) (codec : handler.Codec)
        (r : http.Request) (w : World), w.rdb.failing = true →
        ((handler.NewAuthHandler (wired s) env bc codec).register r w).1.status ≠ http.StatusOK ∧
        ((handler.NewAuthHandler (wired s) env bc codec).login r w).1.status ≠ http.StatusOK ∧
        ((handler.NewAuthHandler (wired s) env bc codec).refresh r w).1.status ≠ http.StatusOK) ∧
      (∀ (s : JWTTokenService) (env : String) (bc : bcrypt.Impl) (codec : handler.Codec)
        (r : http.Request) (w : World) (c : http.Cookie),
        r.Cookie "refresh_token" = some c → storedForSubject s c.Value w = some c.Value →
        w.rdb.failing = false → w.rdb.step.failing = true →
        ((handler.NewAuthHandler (wired s) env bc codec).refresh r w).1.status ≠ http.StatusOK) ∧
      (∀ (h : handler.AuthHandler) (r : http.Request) (w : World) (id : Int),
        r.ctx.user = some id → (h.logout r w).1.status = http.StatusOK) ∧
      (LogoutUser (wired Fixture.tokens) 1 Fixture.outage).1 = some redis.ErrUnavailable ∧
      (Fixture.authHandler.logout Fixture.logoutRequest Fixture.outage).1.status
        = http.StatusOK ∧
      (Fixture.authHandler.logout Fixture.logoutRequest Fixture.outage).2.rdb.lookup 1700000010
        (fmtSprint 1) = some Fixture.secondLogin.1.2.1 := by
  refine ⟨?_, ?_, ?_, by decide, by decide, by decide⟩
  · intro s env bc codec r w hf
    refine ⟨?_, ?_, ?_⟩
    · simp only [handler.AuthHandler.register, handler.NewAuthHandler]
      split
      · simp [response.WriteJson, http.Response.WriteHeader, http.Response.Write,
          http.Response.fresh, http.StatusBadRequest, http.StatusOK]
      · split
        · simp [response.WriteJson, http.Response.WriteHeader, http.Response.Write,
            http.Response.fresh, http.StatusBadRequest, http.StatusOK]
        · split
          · simp [response.WriteJson, http.Response.WriteHeader, http.Response.Write,
              http.Response.fresh, http.StatusInternalServerError, http.StatusOK]
          · rename_i hok
            have := registerUser_ok_store s bc _ w hok
            rw [hf] at this; exact absurd this (by decide)
    · simp only [handler.AuthHandler.login, handler.NewAuthHandler]
      split
      · simp [response.WriteJson, http.Response.WriteHeader, http.Response.Write,
          http.Response.fresh, http.StatusBadRequest, http.StatusOK]
      · split
        · simp [response.WriteJson, http.Response.WriteHeader, http.Response.Write,
            http.Response.fresh, http.StatusBadRequest, http.StatusOK]
        · split
          · simp [response.WriteJson, http.Response.WriteHeader, http.Response.Write,
              http.Response.fresh, http.StatusBadRequest, http.StatusOK]
          · rename_i hok
            have := loginUser_ok_store s bc _ _ w hok
            rw [hf] at this; exact absurd this (by decide)
    · simp only [handler.AuthHandler.refresh, handler.NewAuthHandler]
      split
      · simp [response.WriteJson, http.Response.WriteHeader, http.Response.Write,
          http.Response.fresh, http.StatusUnauthorized, http.StatusOK]
      · split
        · simp [response.WriteJson, http.Response.WriteHeader, http.Response.Write,
            http.Response.fresh, http.StatusUnauthorized, http.StatusOK]
        · rename_i hok
          have := refreshSession_ok_store s _ w hok
          rw [hf] at this; exact absurd this (by decide)
  · intro s env bc codec r w c hc hst hf hf2
    have herr := refreshSession_write_fails s c.Value w hst hf hf2
    simp [handler.AuthHandler.refresh, handler.NewAuthHandler, hc, herr, response.WriteJson,
      http.Response.WriteHeader, http.Response.Write, http.Response.fresh,
      http.StatusUnauthorized, http.StatusOK]
  · intro h r w id hid
    simp [handler.AuthHandler.logout, GetUserIDFromContext, hid, response.WriteJson,
      response.DeleteTokenCookies, http.SetCookie, http.Response.WriteHeader,
      http.Response.Write, http.Response.fresh]

/-! ## Library facts for the isolation of sessions -/

/-- The decimal rendering of natural numbers is injective. -/
theorem formatNat_injective (m n : Nat) (h : formatNat m = formatNat n) : m = n := by
  have hm := parseMagnitude_formatNat m
  rw [h, parseMagnitude_formatNat n] at hm
  exact (Option.some.inj hm).symm

/-- The rendering of a natural number does not start with a minus sign. -/
theorem formatNat_ne_minus (m : Nat) (cs : List Char) : formatNat m ≠ '-' :: cs := by
  obtain ⟨d, rest, hd10, hd⟩ := decDigits_head (m + 1) m [] (by omega)
  unfold formatNat
  rw [hd]
  intro h
  injection h with h1 _
  exact (digitChar_ne_sign d hd10).1 h1

/-- `fmt.Sprint` is injective on integers: distinct subjects have distinct store keys. -/
theorem fmtSprint_injective (a b : Int) (h : fmtSprint a = fmtSprint b) : a = b := by
  have h' := congrArg String.data h
  cases a with
  | ofNat m =>
    cases b with
    | ofNat n =>
      simp only [fmtSprint] at h'
      rw [formatNat_injective m n h']
    | negSucc n =>
      simp only [fmtSprint] at h'
      exact absurd h' (formatNat_ne_minus m _)
  | negSucc m =>
    cases b with
    | ofNat n =>
      simp only [fmtSprint] at h'
      exact absurd h'.symm (formatNat_ne_minus n _)
    | negSucc n =>
      simp only [fmtSprint, List.cons.injEq, true_and] at h'
      have := formatNat_injective _ _ h'
      have hmn : m = n := by omega
      rw [hmn]

/-- Filtering out entries the search would not stop at does not change its result. -/
theorem find_filter_of_imp (p q : redis.Entry → Bool) (es : List redis.Entry)
    (hpq : ∀ e, p e = true → q e = true) : (es.filter q).find? p = es.find? p := by
  induction es with
  | nil => rfl
  | cons e es ih =>
    by_cases hq : q e = true
    · rw [List.filter_cons_of_pos hq, List.find?_cons, List.find?_cons, ih]
    · have hp : p e = false := by
        cases hpe : p e
        · rfl
        · exact absurd (hpq e hpe) hq
      rw [List.filter_cons_of_neg hq, List.find?_cons, hp, ih]

/-- Removing the entries of one key does not change what is live under another. -/
theorem lookup_filter_ne (es : List redis.Entry) (faults faults' : List Bool) (t : Int)
    (k k' : String) (hk : k ≠ k') :
    (redis.Client.mk (es.filter (fun e => e.key ≠ k')) faults').lookup t k =
      (redis.Client.mk es faults).lookup t k := by
  simp only [redis.Client.lookup]
  rw [find_filter_of_imp]
  intro e he
  simp only [Bool.and_eq_true, decide_eq_true_eq] at he
  simp only [ne_eq, decide_not, Bool.not_eq_true', decide_eq_false_iff_not]
  rw [he.1]
  exact hk

/-- `Set` under one key does not change what is live under another. -/
theorem lookup_Set_ne (c : redis.Client) (now t ttl : Int) (k k' : String) (v : Token)
    (hk : k ≠ k') : (c.Set now k' v ttl).2.lookup t k = c.lookup t k := by
  unfold redis.Client.Set
  by_cases hf : c.failing
  · simp [hf, redis.Client.step, redis.Client.lookup]
  · have hne : ¬ k' = k := fun h => hk h.symm
    have h := lookup_filter_ne c.entries c.faults c.faults.tail t k k' hk
    simp only [redis.Client.lookup] at h
    simp only [hf, redis.Client.step, redis.Client.lookup, List.find?_cons, hne,
      decide_False, Bool.false_and, if_false, Bool.false_eq_true]
    exact h

/-- `Del` of one key does not change what is live under another. -/
theorem lookup_Del_ne (c : redis.Client) (t : Int) (k k' : String) (hk : k ≠ k') :
    (c.Del k').2.lookup t k = c.lookup t k := by
  unfold redis.Client.Del
  by_cases hf : c.failing
  · simp [hf, redis.Client.step, redis.Client.lookup]
  · have h := lookup_filter_ne c.entries c.faults c.faults.tail t k k' hk
    simp only [redis.Client.lookup] at h
    simp only [hf, redis.Client.step, redis.Client.lookup, if_false, Bool.false_eq_true]
    exact h

/-- `Get` changes nothing that is live. -/
theorem lookup_Get (c : redis.Client) (now t : Int) (k k' : String) :
    (c.Get now k').2.lookup t k = c.lookup t k := by
  unfold redis.Client.Get
  by_cases hf : c.failing
  · simp [hf, redis.Client.step, redis.Client.lookup]
  · cases hl : c.lookup now k' <;> simp [hf, redis.Client.step, redis.Client.lookup]

/-- `StoreRefreshToken` for one subject leaves what is live under any other key. -/
theorem storeRefreshToken_frame (s : JWTTokenService) (a : Int) (tok : Token) (w : World)
    (t : Int) (k : String) (hk : k ≠ fmtSprint a) :
    (s.StoreRefreshToken a tok w).2.rdb.lookup t k = w.rdb.lookup t k := by
  simp only [StoreRefreshToken]
  exact lookup_Set_ne w.rdb w.now t refreshTTL k (fmtSprint a) tok hk

/-- `RemoveRefreshToken` for one subject leaves what is live under any other key. -/
theorem removeRefreshToken_frame (s : JWTTokenService) (a : Int) (w : World)
    (t : Int) (k : String) (hk : k ≠ fmtSprint a) :
    (s.RemoveRefreshToken a w).2.rdb.lookup t k = w.rdb.lookup t k := by
  simp only [RemoveRefreshToken]
  exact lookup_Del_ne w.rdb t k (fmtSprint a) hk

/-- `LogoutUser` for one subject leaves what is live under any other key. -/
theorem logoutUser_frame (s : JWTTokenService) (a : Int) (w : World)
    (t : Int) (k : String) (hk : k ≠ fmtSprint a) :
    (LogoutUser (wired s) a w).2.rdb.lookup t k = w.rdb.lookup t k := by
  have h := removeRefreshToken_frame s a w t k hk
  simp only [LogoutUser, wired, NewAuthUseCase, JWTTokenService.asTokenService]
  split_ifs <;> exact h

/-- `LoginUser` leaves what is live under every key but that of the user it finds. -/
theorem loginUser_frame (s : JWTTokenService) (bc : bcrypt.Impl) (email password : String)
    (w : World) (t : Int) (k : String)
    (hk : k ≠ fmtSprint (repository.GetByEmail email w).1.1.ID) :
    (LoginUser (wired s) bc email password w).2.rdb.lookup t k = w.rdb.lookup t k := by
  have hg := (getByEmail_frame email w).1
  have hs := storeRefreshToken_frame s (repository.GetByEmail email w).1.1.ID
    (s.GenerateRefreshToken (repository.GetByEmail email w).1.1.ID
      (repository.GetByEmail email w).2).1 (repository.GetByEmail email w).2 t k hk
  rw [hg] at hs
  simp only [LoginUser, wired, NewAuthUseCase, JWTTokenService.asTokenService,
    repository.UserRepo]
  split_ifs <;> first | exact hs | rw [hg]

/-- `RefreshSession` leaves what is live under every key but that of the subject the
presented token names. -/
theorem refreshSession_frame (s : JWTTokenService) (tok : Token) (w : World) (t : Int)
    (k : String) (hk : k ≠ fmtSprint (strconvParseInt (s.VerifyRefreshToken tok w).1).1) :
    (RefreshSession (wired s) tok w).2.rdb.lookup t k = w.rdb.lookup t k := by
  set p := (strconvParseInt (s.VerifyRefreshToken tok w).1).1 with hp
  have hg : (s.GetRefreshToken p w).2.rdb.lookup t k = w.rdb.lookup t k := by
    simp only [GetRefreshToken]
    exact lookup_Get w.rdb w.now t k (fmtSprint p)
  have hs := storeRefreshToken_frame s p (s.GenerateRefreshToken p (s.GetRefreshToken p w).2).1
    (s.GetRefreshToken p w).2 t k hk
  rw [hg] at hs
  simp only [RefreshSession, wired, NewAuthUseCase, JWTTokenService.asTokenService, ← hp]
  split_ifs <;> first | rfl | exact hg | exact hs

/-- A refresh token names the subject it was generated for, whenever it is verified. -/
theorem verifyRefreshToken_subject (s : JWTTokenService) (a : Int) (w0 w : World)
    (h : (s.VerifyRefreshToken (s.GenerateRefreshToken a w0).1 w).2 = none) :
    (s.VerifyRefreshToken (s.GenerateRefreshToken a w0).1 w).1 = fmtSprint a := by
  rw [generateRefreshToken_ok] at h ⊢
  revert h
  simp only [VerifyRefreshToken, jwt.GetSigningMethod, jwt.ParseWithClaims, jwt.Verify,
    jwt.MapClaims.get, jwt.decodeClaims, jwt.decodeValue, List.lookup]
  generalize jwt.Validate _ w.now = v
  cases v with
  | none => simp [errorsIs, List.lookup]
  | some e =>
    by_cases he : errorsIs (some (jwt.ErrTokenInvalidClaims.join e)) jwt.ErrTokenExpired = true
    · simp [he, List.lookup]
    · simp [he, List.lookup]

/-- The outcome of `RefreshSession` depends on the store only through its availability and
the value live under the key of the subject the presented token names. -/
theorem refreshSession_reads (s : JWTTokenService) (tok : Token) (w w' : World)
    (hnow : w'.now = w.now) (hfaults : w'.rdb.faults = w.rdb.faults)
    (hl : w'.rdb.lookup w.now (fmtSprint (strconvParseInt (s.VerifyRefreshToken tok w).1).1) =
      w.rdb.lookup w.now (fmtSprint (strconvParseInt (s.VerifyRefreshToken tok w).1).1)) :
    (RefreshSession (wired s) tok w').1 = (RefreshSession (wired s) tok w).1 := by
  have hv : s.VerifyRefreshToken tok w' = s.VerifyRefreshToken tok w := by
    simp only [VerifyRefreshToken, hnow]
  set p := (strconvParseInt (s.VerifyRefreshToken tok w).1).1 with hp
  have hfail : w'.rdb.failing = w.rdb.failing := by simp [redis.Client.failing, hfaults]
  have hget : (s.GetRefreshToken p w').1 = (s.GetRefreshToken p w).1 := by
    simp only [GetRefreshToken, redis.Client.Get, hnow, hfail, hl]
    by_cases hf : w.rdb.failing
    · simp [hf]
    · cases hlk : w.rdb.lookup w.now (fmtSprint p) <;> simp [hf]
  have hgetf : (s.GetRefreshToken p w').2.rdb.faults = (s.GetRefreshToken p w).2.rdb.faults := by
    simp only [GetRefreshToken, redis.Client.Get, hnow, hfail, hl]
    by_cases hf : w.rdb.failing
    · simp [hf, redis.Client.step, hfaults]
    · cases hlk : w.rdb.lookup w.now (fmtSprint p) <;> simp [hf, redis.Client.step, hfaults]
  have hgetn : (s.GetRefreshToken p w').2.now = (s.GetRefreshToken p w).2.now := by
    simp [GetRefreshToken, hnow]
  have hgen := generate_clock_only s p (s.GetRefreshToken p w).2 (s.GetRefreshToken p w').2 hgetn
  have hst : ∀ x, (s.StoreRefreshToken p x (s.GetRefreshToken p w').2).1 =
      (s.StoreRefreshToken p x (s.GetRefreshToken p w).2).1 := by
    intro x
    have hff : (s.GetRefreshToken p w').2.rdb.failing = (s.GetRefreshToken p w).2.rdb.failing := by
      simp [redis.Client.failing, hgetf]
    simp only [StoreRefreshToken, redis.Client.Set, hff]
    split_ifs <;> rfl
  simp only [RefreshSession, wired, NewAuthUseCase, JWTTokenService.asTokenService, hv, ← hp,
    hget, hgen.1, hgen.2, hst]
  split_ifs <;> rfl

/-! ## C21: the sessions of different subjects -/

/-- C21: for an `int64` subject `a` and any other subject `b`, the store keys differ and
`strconv.ParseInt` reads `a` back from its key; `StoreRefreshToken`, `RemoveRefreshToken`
and `LogoutUser` for `a`, `LoginUser` of a user whose ID is `a`, and `RefreshSession` on any
token naming `a`, leave the refresh token stored for `b` as it was, at every instant; and
for a token generated for `a`, `RefreshSession` names `a` whenever the token verifies,
leaves the session of `b` alone, and returns the same in any world with the same clock, the
same store availability and the same live value under the key of `a`. -/
theorem C21_sessions_isolated (s : JWTTokenService) (bc : bcrypt.Impl) (a b : Int) (w : World)
    (ha : isInt64 a) (hab : a ≠ b) :
    fmtSprint a ≠ fmtSprint b ∧
      strconvParseInt (fmtSprint a) = (a, none) ∧
      (∀ tok, sameSessionOf b w (s.StoreRefreshToken a tok w).2) ∧
      sameSessionOf b w (s.RemoveRefreshToken a w).2 ∧
      sameSessionOf b w (LogoutUser (wired s) a w).2 ∧
      (∀ email password, (repository.GetByEmail email w).1.1.ID = a →
        sameSessionOf b w (LoginUser (wired s) bc email password w).2) ∧
      (∀ tok, (s.VerifyRefreshToken tok w).1 = fmtSprint a →
        sameSessionOf b w (RefreshSession (wired s) tok w).2) ∧
      (∀ w0,
        ((s.VerifyRefreshToken (s.GenerateRefreshToken a w0).1 w).2 = none →
          strconvParseInt (s.VerifyRefreshToken (s.GenerateRefreshToken a w0).1 w).1 =
            (a, none)) ∧
        sameSessionOf b w (RefreshSession (wired s) (s.GenerateRefreshToken a w0).1 w).2 ∧
        ∀ w', w'.now = w.now → w'.rdb.faults = w.rdb.faults →
          w'.rdb.lookup w.now (fmtSprint a) = w.rdb.lookup w.now (fmtSprint a) →
          (RefreshSession (wired s) (s.GenerateRefreshToken a w0).1 w').1 =
            (RefreshSession (wired s) (s.GenerateRefreshToken a w0).1 w).1) := by
  have hk : fmtSprint b ≠ fmtSprint a := fun h => hab (fmtSprint_injective b a h).symm
  have hparse := strconvParseInt_fmtSprint a ha
  have hrefresh : ∀ tok, (s.VerifyRefreshToken tok w).1 = fmtSprint a →
      sameSessionOf b w (RefreshSession (wired s) tok w).2 := by
    intro tok hv t
    apply refreshSession_frame
    rw [hv, hparse]
    exact hk
  refine ⟨fun h => hk h.symm, hparse, ?_, ?_, ?_, ?_, hrefresh, ?_⟩
  · intro tok t
    exact storeRefreshToken_frame s a tok w t _ hk
  · intro t
    exact removeRefreshToken_frame s a w t _ hk
  · intro t
    exact logoutUser_frame s a w t _ hk
  · intro email password hid t
    apply loginUser_frame
    rw [hid]
    exact hk
  · intro w0
    by_cases hv : (s.VerifyRefreshToken (s.GenerateRefreshToken a w0).1 w).2 = none
    · have hsub := verifyRefreshToken_subject s a w0 w hv
      refine ⟨fun _ => by rw [hsub, hparse], hrefresh _ hsub, ?_⟩
      intro w' hnow hfaults hl
      apply refreshSession_reads s _ w w' hnow hfaults
      rw [hsub, hparse]
      exact hl
    · refine ⟨fun h => absurd h hv, ?_, ?_⟩
      · intro t
        have hsome : (s.VerifyRefreshToken (s.GenerateRefreshToken a w0).1 w).2.isSome = true := by
          cases hc : (s.VerifyRefreshToken (s.GenerateRefreshToken a w0).1 w).2 with
          | none => exact absurd hc hv
          | some e => rfl
        simp [RefreshSession, wired, NewAuthUseCase, JWTTokenService.asTokenService, hsome]
      · intro w' hnow _ _
        have hvw : s.VerifyRefreshToken (s.GenerateRefreshToken a w0).1 w' =
            s.VerifyRefreshToken (s.GenerateRefreshToken a w0).1 w := by
          simp only [VerifyRefreshToken, hnow]
        have hsome : (s.VerifyRefreshToken (s.GenerateRefreshToken a w0).1 w).2.isSome = true := by
          cases hc : (s.VerifyRefreshToken (s.GenerateRefreshToken a w0).1 w).2 with
          | none => exact absurd hc hv
          | some e => rfl
        simp [RefreshSession, wired, NewAuthUseCase, JWTTokenService.asTokenService, hvw, hsome]

/-- C21, an instance: `alice` (subject 1) exchanges her refresh token while `bob`
(subject 2) has a session; the exchange succeeds and `bob` keeps his stored token. -/
theorem C21_sessions_isolated_witness :
    isInt64 1 ∧ (1 : Int) ≠ 2 ∧
      Fixture.both.2.rdb.lookup 1700000010 (fmtSprint 2) = some Fixture.both.1.2.1 ∧
      (usecase.AuthUseCase.RefreshSession (usecase.wired Fixture.tokens)
        Fixture.secondLogin.1.2.1 Fixture.both.2).1.2.2 = none ∧
      sameSessionOf 2 Fixture.both.2
        (usecase.AuthUseCase.RefreshSession (usecase.wired Fixture.tokens)
          Fixture.secondLogin.1.2.1 Fixture.both.2).2 :=
  ⟨by decide, by decide, by decide, by decide,
    (C21_sessions_isolated Fixture.tokens Fixture.hasher 1 2 Fixture.both.2 (by decide)
      (by decide)).2.2.2.2.2.2.1 Fixture.secondLogin.1.2.1 (by decide)⟩

/-! ## C22: a login or registration that fails -/

/-- A `StoreRefreshToken` that returns an error has left the entries as they were. -/
theorem storeRefreshToken_failed (s : JWTTokenService) (id : Int) (tok : Token) (w : World)
    (h : (s.StoreRefreshToken id tok w).1.isSome = true) :
    (s.StoreRefreshToken id tok w).2.rdb.entries = w.rdb.entries := by
  revert h
  simp only [StoreRefreshToken, redis.Client.Set]
  by_cases hf : w.rdb.failing <;> simp [hf, redis.Client.step]

/-- Signing an access token never fails in the wired token service. -/
theorem generateAccessToken_ok (s : JWTTokenService) (id : Int) (w : World) :
    (s.GenerateAccessToken id w).2 = none := by
  simp [GenerateAccessToken, jwt.SignedString, jwt.GetSigningMethod, jwt.Sign]

/-- C22, the code: over the wired token service, whose signing cannot fail, every error of
`LoginUser` and of `RegisterUser` leaves the entries of the store as they were.  But both
store the new refresh token before they generate the access token: over a token service
whose access-token signing fails, `LoginUser` of `alice` returns that error and no tokens
while the token stored for her is no longer the one of her session, and `RegisterUser` of
`bob` returns that error with his row inserted and a refresh token stored for him;
`RefreshSession`, which generates both tokens before it stores, returns the error and
leaves the stored token in place. -/
theorem C22_failed_login_overwrites_session :
    (∀ (s : JWTTokenService) (bc : bcrypt.Impl) (email password : String) (w : World),
        (LoginUser (wired s) bc email password w).1.2.2 ≠ none →
        (LoginUser (wired s) bc email password w).2.rdb.entries = w.rdb.entries) ∧
      (∀ (s : JWTTokenService) (bc : bcrypt.Impl) (user : entity.User) (w : World),
        (RegisterUser (wired s) bc user w).1.2.2 ≠ none →
        (RegisterUser (wired s) bc user w).2.rdb.entries = w.rdb.entries) ∧
      Fixture.later.rdb.lookup 1700000020 (fmtSprint 1) = some Fixture.secondLogin.1.2.1 ∧
      (LoginUser Fixture.brokenSigner Fixture.hasher "alice@example.com" "hunter22"
        Fixture.later).1 = failed (some Fixture.signingError) ∧
      (LoginUser Fixture.brokenSigner Fixture.hasher "alice@example.com" "hunter22"
        Fixture.later).2.rdb.lookup 1700000020 (fmtSprint 1) =
          some (Fixture.tokens.GenerateRefreshToken 1 Fixture.later).1 ∧
      (Fixture.tokens.GenerateRefreshToken 1 Fixture.later).1 ≠ Fixture.secondLogin.1.2.1 ∧
      Fixture.later.rdb.lookup 1700000020 (fmtSprint 2) = none ∧
      (RegisterUser Fixture.brokenSigner Fixture.hasher Fixture.bob Fixture.later).1 =
        failed (some Fixture.signingError) ∧
      (RegisterUser Fixture.brokenSigner Fixture.hasher Fixture.bob
        Fixture.later).2.rdb.lookup 1700000020 (fmtSprint 2) =
          some (Fixture.tokens.GenerateRefreshToken 2 Fixture.later).1 ∧
      (RegisterUser Fixture.brokenSigner Fixture.hasher Fixture.bob
        Fixture.later).2.db.users.map (fun u => (u.ID, u.Email)) =
          [(1, "alice@example.com"), (2, "bob@example.com")] ∧
      (RefreshSession Fixture.brokenSigner Fixture.secondLogin.1.2.1 Fixture.later).1 =
        failed (some Fixture.signingError) ∧
      (RefreshSession Fixture.brokenSigner Fixture.secondLogin.1.2.1
        Fixture.later).2.rdb.lookup 1700000020 (fmtSprint 1) =
          some Fixture.secondLogin.1.2.1 := by
  refine ⟨?_, ?_, by decide, by decide, by decide, by decide, by decide, by decide, by decide,
    by decide, by decide, by decide⟩
  · intro s bc email password w
    have hg := (getByEmail_frame email w).1
    simp only [LoginUser, wired, NewAuthUseCase, JWTTokenService.asTokenService,
      repository.UserRepo, generateAccessToken_ok, generateRefreshToken_ok]
    split_ifs <;> intro herr <;>
      first
      | rw [hg]
      | rw [storeRefreshToken_failed s _ _ _ (by assumption), hg]
      | exact absurd rfl herr
  · intro s bc user w
    have hg := (getByEmail_frame user.Email w).1
    have hc : ∀ u, (repository.Create u (repository.GetByEmail user.Email w).2).2.rdb = w.rdb := by
      intro u
      rw [← hg]
      simp only [repository.Create]
      split_ifs
      · rfl
      · split <;> rfl
    simp only [RegisterUser, wired, NewAuthUseCase, JWTTokenService.asTokenService,
      repository.UserRepo, generateAccessToken_ok, generateRefreshToken_ok]
    split_ifs <;> intro herr <;>
      first
      | rw [hg]
      | rw [hc]
      | rw [storeRefreshToken_failed s _ _ _ (by assumption), hc]
      | exact absurd rfl herr

/-! ## C23: what the user store is given as password -/

/-- C23, the code: `RegisterUser`, when the lookup lets it through and hashing succeeds,
sends the `INSERT` with the password replaced by its `HashPassword`; `CreateUser`,
`UpdateUserById` and `UpdateAuthUserProfile` send the user as submitted, password included.
At the failing input, `alice` created through `CreateUser` has her plaintext as stored
password, which is not its hash, and her `LoginUser` with that password fails with
`invalid password`, where the registered `alice` has the hash stored and logs in; after either update of the registered `alice` the stored password is
the new plaintext and `LoginUser` fails with the new password as with the old one. -/
theorem C23_only_registration_hashes :
    (∀ (s : JWTTokenService) (bc : bcrypt.Impl) (user : entity.User) (w : World),
        w.db.failing = false → (hash.HashPassword bc user.Password w).2 = none →
        (RegisterUser (wired s) bc user w).2.db.log =
          sql.Stmt.insert { user with Password := (hash.HashPassword bc user.Password w).1 } ::
            sql.Stmt.selectByEmail user.Email :: w.db.log) ∧
      (∀ (user : entity.User) (w : World),
        (UserUseCase.CreateUser (NewUserUseCase repository.UserRepo) user w).2.db.log =
          sql.Stmt.insert user :: w.db.log) ∧
      (∀ (id : Int) (user : entity.User) (w : World),
        (UserUseCase.UpdateUserById (NewUserUseCase repository.UserRepo) id user w).2.db.log =
          sql.Stmt.update id user :: w.db.log) ∧
      (∀ (s : JWTTokenService) (id : Int) (user : entity.User) (w : World),
        (UpdateAuthUserProfile (wired s) id user w).2.db.log =
          sql.Stmt.update id user :: w.db.log) ∧
      Fixture.created.1 = none ∧
      Fixture.created.2.db.users.map (fun u => (u.Email, u.Password)) =
        [("alice@example.com", "hunter22")] ∧
      (hash.HashPassword Fixture.hasher "hunter22" Fixture.start).1 ≠ "hunter22" ∧
      (LoginUser (wired Fixture.tokens) Fixture.hasher "alice@example.com" "hunter22"
        Fixture.created.2).1 = failed (some (Err.new "invalid password")) ∧
      Fixture.registered.2.db.users.map (fun u => (u.Email, u.Password)) =
        [("alice@example.com", "$2a$10$hunter22")] ∧
      (LoginUser (wired Fixture.tokens) Fixture.hasher "alice@example.com" "hunter22"
        Fixture.registered.2).1.2.2 = none ∧
      Fixture.updated.1 = none ∧
      Fixture.updated.2.db.users.map (fun u => (u.Email, u.Password)) =
        [("alice@example.com", "s3cret-new")] ∧
      (LoginUser (wired Fixture.tokens) Fixture.hasher "alice@example.com" "s3cret-new"
        Fixture.updated.2).1 = failed (some (Err.new "invalid password")) ∧
      (LoginUser (wired Fixture.tokens) Fixture.hasher "alice@example.com" "hunter22"
        Fixture.updated.2).1 = failed (some (Err.new "invalid password")) ∧
      Fixture.updatedById.1 = none ∧
      Fixture.updatedById.2.db.users.map (fun u => (u.Email, u.Password)) =
        [("alice@example.com", "s3cret-new")] ∧
      (LoginUser (wired Fixture.tokens) Fixture.hasher "alice@example.com" "s3cret-new"
        Fixture.updatedById.2).1 = failed (some (Err.new "invalid password")) := by
  refine ⟨?_, ?_, ?_, ?_, by decide, by decide, by decide, by decide, by decide, by decide,
    by decide, by decide, by decide, by decide, by decide, by decide, by decide⟩
  · intro s bc user w hf hh
    have hlog : (repository.GetByEmail user.Email w).2.db.log =
        sql.Stmt.selectByEmail user.Email :: w.db.log := by
      simp only [repository.GetByEmail, hf]
      cases hfind : w.db.users.find? (fun u => u.Email = user.Email) <;> simp [sql.DB.step]
    have hsalt : (repository.GetByEmail user.Email w).2.salt = w.salt := by
      simp only [repository.GetByEmail, hf]
      cases hfind : w.db.users.find? (fun u => u.Email = user.Email) <;> simp
    have herr : ¬ (((repository.GetByEmail user.Email w).1.2.isSome &&
        decide ((repository.GetByEmail user.Email w).1.2 ≠ some sql.ErrNoRows)) = true) := by
      simp only [repository.GetByEmail, hf]
      cases hfind : w.db.users.find? (fun u => u.Email = user.Email) <;> simp
    have hhash : hash.HashPassword bc user.Password (repository.GetByEmail user.Email w).2 =
        hash.HashPassword bc user.Password w := by
      simp only [hash.HashPassword, hsalt]
    have hcl : ∀ u, (repository.Create u (repository.GetByEmail user.Email w).2).2.db.log =
        sql.Stmt.insert u :: sql.Stmt.selectByEmail user.Email :: w.db.log := by
      intro u
      rw [← hlog]
      simp only [repository.Create]
      split_ifs
      · rfl
      · split <;> rfl
    simp only [RegisterUser, wired, NewAuthUseCase, JWTTokenService.asTokenService,
      repository.UserRepo, generateAccessToken_ok, generateRefreshToken_ok, herr, hhash, hh]
    split_ifs <;> first | exact hcl _ | contradiction
  · intro user w
    simp only [UserUseCase.CreateUser, NewUserUseCase, repository.UserRepo, repository.Create]
    split_ifs <;> first | rfl | (split <;> rfl)
  · intro id user w
    simp only [UserUseCase.UpdateUserById, NewUserUseCase, repository.UserRepo,
      repository.UpdateById]
    split_ifs <;> first | rfl | (split <;> rfl)
  · intro s id user w
    simp only [UpdateAuthUserProfile, wired, NewAuthUseCase, repository.UserRepo,
      repository.UpdateById]
    split_ifs <;> first | rfl | (split <;> rfl)

end Auth
